import Mathlib

/-!
A shallow embedding of the 2048 puzzle engine of
`src/src/games/puzzle_2048/game.py` (class `Puzzle2048Game`), together with
proofs checking the natural-language specification's claims against it.

Modelling conventions:
* The 4×4 grid of tile values (`self.grid`, a list of lists of ints) is a
  `List (List Nat)`; the empty cell is the value `0`, as in the source.
* The mutable game object is the structure `GState` with the fields the
  game logic touches: `grid`, `score`, `game_over`, `won`, `moved` and the
  `animations` list.  The purely visual fields (colors, `best_score`,
  `dark_mode`, the float `progress` of an animation) play no role in the
  logic and are omitted.
* Animation dictionaries (`{'type': 'spawn'/'merge', 'position': (i, j),
  'value': v, 'progress': 0.0}`) become the inductive `Ev`.
* `random.choice(empty_cells)` and `random.random() < 0.9` are modelled by
  explicit parameters: an arbitrary index `pick` (reduced modulo the number
  of empty cells) and a Boolean `four` (`true` models the 10% branch that
  spawns a 4).  Every random outcome of the source corresponds to some
  choice of these parameters.
* Each Python `for` loop with its `skip` flag and `merged` accumulator is
  translated to a recursion whose cases mirror the loop's iterations.
-/

namespace Puzzle2048

/-- `self.grid_size` — fixed at 4 in `__init__`. -/
def gridSize : Nat := 4

/-- The grid: a list of rows of tile values, `0` meaning an empty cell. -/
abbrev Grid := List (List Nat)

/-- An animation entry appended to `self.animations`: either a spawn of a
new tile or a merge, at a `(row, col)` position, with the tile value.
The float `progress` field (render-time state) is omitted. -/
inductive Ev where
  | spawn (pos : Nat × Nat) (value : Nat)
  | merge (pos : Nat × Nat) (value : Nat)
deriving DecidableEq

/-- Result of collapsing one line (row or column): the collapsed line, the
score gained, and the merge events as `(index within the line, value)`. -/
structure RowResult where
  merged : List Nat
  gained : Nat
  evs : List (Nat × Nat)
deriving DecidableEq

/-- The `for j in range(len(row))` loop of `_move_left` (and of `_move_up`,
which duplicates it for columns): `acc` is the Python `merged` list, `sc`
the score accumulated so far, `ev` the merge events recorded so far.  The
`skip` flag of the source corresponds to consuming two list elements at
once in the merge branch.  A merge event is recorded at index
`len(merged) - 1` after the append, i.e. at the old `acc.length`. -/
def mergeLoopL : List Nat → List Nat → Nat → List (Nat × Nat) → RowResult
  | [], acc, sc, ev => ⟨acc, sc, ev⟩
  | [x], acc, sc, ev => ⟨acc ++ [x], sc, ev⟩
  | x :: y :: rest, acc, sc, ev =>
    if x = y then
      mergeLoopL rest (acc ++ [x * 2]) (sc + x * 2) (ev ++ [(acc.length, x * 2)])
    else
      mergeLoopL (y :: rest) (acc ++ [x]) sc ev

/-- One row of `_move_left`: drop the zeros, run the merge loop, pad on the
right with zeros back to `grid_size`. -/
def collapseRowL (row : List Nat) : RowResult :=
  let r := mergeLoopL (row.filter (· != 0)) [] 0 []
  ⟨r.merged ++ List.replicate (gridSize - r.merged.length) 0, r.gained, r.evs⟩

/-- The `for j in range(len(row) - 1, -1, -1)` loop of `_move_right` (and of
`_move_down`, which duplicates it for columns), applied to the *reversed*
compact line so that the head is the rightmost element.  `merged.insert(0, v)`
is prepending to `acc`; an event is recorded at `grid_size - len(merged)`
after the insert, i.e. at `gridSize - (acc.length + 1)`. -/
def mergeLoopR : List Nat → List Nat → Nat → List (Nat × Nat) → RowResult
  | [], acc, sc, ev => ⟨acc, sc, ev⟩
  | [x], acc, sc, ev => ⟨x :: acc, sc, ev⟩
  | x :: y :: rest, acc, sc, ev =>
    if x = y then
      mergeLoopR rest (x * 2 :: acc) (sc + x * 2) (ev ++ [(gridSize - (acc.length + 1), x * 2)])
    else
      mergeLoopR (y :: rest) (x :: acc) sc ev

/-- One row of `_move_right`: drop the zeros, run the downward loop (on the
reversed compact row), pad on the left with zeros back to `grid_size`. -/
def collapseRowR (row : List Nat) : RowResult :=
  let r := mergeLoopR (row.filter (· != 0)).reverse [] 0 []
  ⟨List.replicate (gridSize - r.merged.length) 0 ++ r.merged, r.gained, r.evs⟩

/-- Sum of a list of naturals (explicit recursion, used for score totals). -/
def natSum : List Nat → Nat
  | [] => 0
  | x :: xs => x + natSum xs

/-- `_move_left`: collapse every row toward index 0; score contributions and
merge events (positions `(i, index in row)`) accumulate in row order. -/
def moveLeft (g : Grid) : Grid × Nat × List Ev :=
  let rs := g.map collapseRowL
  (rs.map (·.merged),
   natSum (rs.map (·.gained)),
   (rs.enum.map fun p => p.2.evs.map fun q => Ev.merge (p.1, q.1) q.2).flatten)

/-- `_move_right`: collapse every row toward index 3. -/
def moveRight (g : Grid) : Grid × Nat × List Ev :=
  let rs := g.map collapseRowR
  (rs.map (·.merged),
   natSum (rs.map (·.gained)),
   (rs.enum.map fun p => p.2.evs.map fun q => Ev.merge (p.1, q.1) q.2).flatten)

/-- Column `j` of the grid, read as `self.grid[i][j]` for `i` in range. -/
def colD (g : Grid) (j : Nat) : List Nat := g.map fun row => row.getD j 0

/-- The write-back loop `for i in range(grid_size): self.grid[i][j] = merged[i]`. -/
def writeCol (g : Grid) (j : Nat) (m : List Nat) : Grid :=
  g.enum.map fun p => p.2.set j (m.getD p.1 0)

/-- One iteration of the `for j in range(self.grid_size)` loop of `_move_up`:
extract column `j` (the `!= 0` filter of the comprehension is the filter
inside `collapseRowL`), collapse it upward, write it back, accumulate the
score and the merge events (positions `(index in column, j)`). -/
def upStep (acc : Grid × Nat × List Ev) (j : Nat) : Grid × Nat × List Ev :=
  let r := collapseRowL (colD acc.1 j)
  (writeCol acc.1 j r.merged,
   acc.2.1 + r.gained,
   acc.2.2 ++ r.evs.map fun q => Ev.merge (q.1, j) q.2)

/-- One iteration of the column loop of `_move_down` (same shape, with the
downward merge loop). -/
def downStep (acc : Grid × Nat × List Ev) (j : Nat) : Grid × Nat × List Ev :=
  let r := collapseRowR (colD acc.1 j)
  (writeCol acc.1 j r.merged,
   acc.2.1 + r.gained,
   acc.2.2 ++ r.evs.map fun q => Ev.merge (q.1, j) q.2)

/-- `_move_up`: the column loop, processing columns left to right. -/
def moveUp (g : Grid) : Grid × Nat × List Ev :=
  (List.range gridSize).foldl upStep (g, 0, [])

/-- `_move_down`: the column loop, processing columns left to right. -/
def moveDown (g : Grid) : Grid × Nat × List Ev :=
  (List.range gridSize).foldl downStep (g, 0, [])

/-- The four directions accepted by `_move_tiles`. -/
inductive Direction where
  | up
  | down
  | left
  | right
deriving DecidableEq

/-- Dispatch of `_move_tiles` on its `direction` string. -/
def dirMove : Direction → Grid → Grid × Nat × List Ev
  | .left, g => moveLeft g
  | .right, g => moveRight g
  | .up, g => moveUp g
  | .down, g => moveDown g

/-- The game state: the fields of `Puzzle2048Game` that the game logic reads
or writes (`self.grid`, `self.score`, `self.game_over`, `self.won`,
`self.moved`, `self.animations`). -/
structure GState where
  grid : Grid
  score : Nat
  gameOver : Bool
  won : Bool
  moved : Bool
  animations : List Ev
deriving DecidableEq

/-- Cell read `self.grid[i][j]` (defaulting to 0 outside the lists; the
source only ever indexes in range on its 4×4 grid). -/
def cellD (g : Grid) (i j : Nat) : Nat := (g.getD i []).getD j 0

/-- Cell write `self.grid[i][j] = v`. -/
def setCell (g : Grid) (i j v : Nat) : Grid := g.set i ((g.getD i []).set j v)

/-- The adjacent-merge scan of `_check_game_state`: some horizontally or
vertically adjacent pair of cells is equal. -/
def hasAdjPair (g : Grid) : Bool :=
  ((List.range gridSize).any fun i =>
    (List.range (gridSize - 1)).any fun j => cellD g i j == cellD g i (j + 1)) ||
  ((List.range gridSize).any fun j =>
    (List.range (gridSize - 1)).any fun i => cellD g i j == cellD g (i + 1) j)

/-- `not any(0 in row for row in self.grid)` — the board has no empty cell. -/
def isFull (g : Grid) : Bool := !(g.any fun row => row.contains 0)

/-- `_check_game_state`: `won` becomes true once any row contains 2048 and
is never cleared; `game_over` is recomputed only when the board is full. -/
def checkGameState (s : GState) : GState :=
  { s with
    won := s.won || s.grid.any fun row => row.contains 2048,
    gameOver := if isFull s.grid then !hasAdjPair s.grid else s.gameOver }

/-- The `empty_cells` comprehension of `_add_random_tile`: all `(i, j)` with
`self.grid[i][j] == 0`, in row-major order. -/
def emptyCellsList (g : Grid) : List (Nat × Nat) :=
  (((List.range gridSize).map fun i => (List.range gridSize).map fun j => (i, j)).flatten).filter
    fun p => cellD g p.1 p.2 == 0

/-- The cell `_add_random_tile` picks when the board has an empty cell:
`random.choice(empty_cells)` modelled by an arbitrary index `pick` reduced
modulo the number of empty cells. -/
def spawnCell (g : Grid) (pick : Nat) : Nat × Nat :=
  (emptyCellsList g).getD (pick % (emptyCellsList g).length) (0, 0)

/-- `_add_random_tile`: if there is an empty cell, pick one (`pick` models
`random.choice`), set it to 2 or to 4 (`four` models the 10% branch of
`random.random()`), and append a spawn animation; otherwise do nothing. -/
def addRandomTile (s : GState) (pick : Nat) (four : Bool) : GState :=
  let empty := emptyCellsList s.grid
  if empty = [] then s
  else
    let c := empty.getD (pick % empty.length) (0, 0)
    let v := if four then 4 else 2
    { s with
      grid := setCell s.grid c.1 c.2 v,
      animations := s.animations ++ [Ev.spawn c v] }

/-- `_move_tiles`: remember the old grid, clear `moved`, apply the direction
(the move functions themselves add to `score` and `animations`), and if the
grid changed set `moved`, spawn a tile and re-check the game state. -/
def moveTiles (s : GState) (d : Direction) (pick : Nat) (four : Bool) : GState :=
  let r := dirMove d s.grid
  let s1 : GState :=
    { s with
      grid := r.1,
      score := s.score + r.2.1,
      moved := false,
      animations := s.animations ++ r.2.2 }
  if r.1 = s.grid then s1
  else checkGameState (addRandomTile { s1 with moved := true } pick four)

/-- The arrow-key branch of `handle_event`: movement keys are handled only
under `if not self.game_over`. -/
def handleMove (s : GState) (d : Direction) (pick : Nat) (four : Bool) : GState :=
  if s.gameOver then s else moveTiles s d pick four

/-- `initialize`: an all-zero grid, score 0, cleared flags, then two random
tiles. -/
def initState (p1 : Nat) (f1 : Bool) (p2 : Nat) (f2 : Bool) : GState :=
  addRandomTile
    (addRandomTile
      ⟨List.replicate gridSize (List.replicate gridSize 0), 0, false, false, false, []⟩
      p1 f1)
    p2 f2

/-- Shape well-formedness of a grid: 4 rows of 4 cells, as maintained by the
source. -/
def wf (g : Grid) : Bool := g.length == gridSize && g.all fun row => row.length == gridSize

/-- Terminal state as reported to the player by `_draw_ui`: the win message
shows only while `won and not game_over`; the game-over message shows
whenever `game_over`. -/
inductive TerminalReport where
  | won
  | lost
  | inProgress
deriving DecidableEq

/-- The message selection of `_draw_ui` (lines 468–477). -/
def reportedState (s : GState) : TerminalReport :=
  if s.won && !s.gameOver then .won
  else if s.gameOver then .lost
  else .inProgress

/-- A 4×4 grid literal from its 16 entries, row-major. -/
def mkGrid (a0 a1 a2 a3 b0 b1 b2 b3 c0 c1 c2 c3 d0 d1 d2 d3 : Nat) : Grid :=
  [[a0, a1, a2, a3], [b0, b1, b2, b3], [c0, c1, c2, c3], [d0, d1, d2, d3]]

/-! ### The specification's description of LineCollapser (§4.2)

These definitions follow the spec's words, to be compared with the source
translation above: extract the non-empty values, scan left to right in a
single pass replacing each adjacent equal pair by one doubled cell (which
never merges again in the same pass), score each merge by its doubled
value, record one merge event per merge, pad on the right to length 4. -/

/-- Single left-to-right merge pass over the compact sequence (spec §4.2,
step 2): a merged pair is consumed whole, so a fresh merge result never
re-merges. -/
def specPass : List Nat → List Nat
  | [] => []
  | [x] => [x]
  | x :: y :: rest => if x = y then x * 2 :: specPass rest else x :: specPass (y :: rest)

/-- Score gained by the single merge pass: the sum of the doubled values. -/
def specScore : List Nat → Nat
  | [] => 0
  | [_] => 0
  | x :: y :: rest => if x = y then x * 2 + specScore rest else specScore (y :: rest)

/-- Merge events of the single merge pass, one per merge, positioned at the
index the doubled cell occupies in the output; `k` is the number of output
cells already produced. -/
def specEvs : Nat → List Nat → List (Nat × Nat)
  | _, [] => []
  | _, [_] => []
  | k, x :: y :: rest =>
    if x = y then (k, x * 2) :: specEvs (k + 1) rest else specEvs (k + 1) (y :: rest)

/-- Merge events of the downward pass of `_move_right`/`_move_down`, with
positions counted from the right end of the line. -/
def specEvsR : Nat → List Nat → List (Nat × Nat)
  | _, [] => []
  | _, [_] => []
  | k, x :: y :: rest =>
    if x = y then (gridSize - (k + 1), x * 2) :: specEvsR (k + 1) rest else specEvsR (k + 1) (y :: rest)

/-- The spec's LineCollapser collapsing toward index 0 (§4.2): compact the
non-empty values, one merge pass, pad on the right to length 4. -/
def specCollapse (row : List Nat) : RowResult :=
  let compact := row.filter (· != 0)
  ⟨specPass compact ++ List.replicate (gridSize - (specPass compact).length) 0,
   specScore compact,
   specEvs 0 compact⟩

/-! ### The specification's canonical transforms (§2, §4.3)

The spec reduces each direction to "collapse each row toward index 0"
conjugated by a transform: identity for Left, row reversal for Right,
transposition for Up, transposition plus reversal for Down. -/

/-- Transpose of a 4-wide grid. -/
def transposeG (g : Grid) : Grid :=
  (List.range gridSize).map fun j => g.map fun row => row.getD j 0

/-- Spec form of Left: collapse each row toward index 0. -/
def specMoveLeftG (g : Grid) : Grid := g.map fun row => (collapseRowL row).merged

/-- Spec form of the Left score delta. -/
def specMoveLeftScore (g : Grid) : Nat := natSum (g.map fun row => (collapseRowL row).gained)

/-- Spec form of Right: reverse each row, collapse toward index 0, reverse back. -/
def specMoveRightG (g : Grid) : Grid :=
  g.map fun row => (collapseRowL row.reverse).merged.reverse

/-- Spec form of the Right score delta. -/
def specMoveRightScore (g : Grid) : Nat :=
  natSum (g.map fun row => (collapseRowL row.reverse).gained)

/-- Spec form of Up: transpose, collapse each row toward index 0, transpose back. -/
def specMoveUpG (g : Grid) : Grid :=
  transposeG ((transposeG g).map fun c => (collapseRowL c).merged)

/-- Spec form of the Up score delta. -/
def specMoveUpScore (g : Grid) : Nat :=
  natSum ((transposeG g).map fun c => (collapseRowL c).gained)

/-- Spec form of Down: transpose, reverse each row, collapse, reverse back,
transpose back. -/
def specMoveDownG (g : Grid) : Grid :=
  transposeG ((transposeG g).map fun c => (collapseRowL c.reverse).merged.reverse)

/-- Spec form of the Down score delta. -/
def specMoveDownScore (g : Grid) : Nat :=
  natSum ((transposeG g).map fun c => (collapseRowL c.reverse).gained)

/-! ### Event order and event sums -/

/-- Position a visual event refers to. -/
def evPos : Ev → Nat × Nat
  | .spawn p _ => p
  | .merge p _ => p

/-- Row-major (left-to-right, top-to-bottom) order on board positions. -/
abbrev rowMajorLt (a b : Nat × Nat) : Prop := a.1 < b.1 ∨ (a.1 = b.1 ∧ a.2 < b.2)

/-- A list of events is in left-to-right, top-to-bottom scan order of the
cells it refers to. -/
abbrev scanOrdered (l : List Ev) : Prop :=
  l.Pairwise fun e1 e2 => rowMajorLt (evPos e1) (evPos e2)

/-- Sum of the values of the merge events of a list (spawn events count 0). -/
def mergeSum : List Ev → Nat
  | [] => 0
  | Ev.merge _ v :: rest => v + mergeSum rest
  | Ev.spawn _ _ :: rest => mergeSum rest

/-- The tile-value invariant for one cell: non-empty values are powers of
two with exponent at least 1. -/
def pow2cell (v : Nat) : Prop := v ≠ 0 → ∃ k, v = 2 ^ (k + 1)

/-! ### Reachable states -/

/-- Game states reachable from `initialize` by arrow-key moves, under any
outcomes of the random tile draws.  Pressing `R` restarts via `initialize`,
which is the base case again. -/
inductive Reachable : GState → Prop where
  | init (p1 : Nat) (f1 : Bool) (p2 : Nat) (f2 : Bool) : Reachable (initState p1 f1 p2 f2)
  | step (s : GState) (d : Direction) (pick : Nat) (four : Bool) :
      Reachable s → Reachable (handleMove s d pick four)

end Puzzle2048

namespace Puzzle2048

/-! ### List helper lemmas -/

theorem getD_set_ne {α : Type} (l : List α) (i j : Nat) (v d : α) (h : i ≠ j) :
    (l.set i v).getD j d = l.getD j d := by
  induction l generalizing i j with
  | nil => rfl
  | cons a t ih =>
    cases i with
    | zero =>
      cases j with
      | zero => exact absurd rfl h
      | succ j => simp [List.getD_cons_succ]
    | succ i =>
      cases j with
      | zero => simp [List.getD_cons_zero]
      | succ j =>
        simp only [List.set_cons_succ, List.getD_cons_succ]
        exact ih i j fun hij => h (by rw [hij])

theorem getD_set_self {α : Type} (l : List α) (i : Nat) (v d : α) (h : i < l.length) :
    (l.set i v).getD i d = v := by
  induction l generalizing i with
  | nil => simp at h
  | cons a t ih =>
    cases i with
    | zero => rfl
    | succ i =>
      simp only [List.set_cons_succ, List.getD_cons_succ]
      exact ih i (by simpa using h)

theorem getD_mem_or {α : Type} (l : List α) (i : Nat) (d : α) :
    l.getD i d ∈ l ∨ l.getD i d = d := by
  induction l generalizing i with
  | nil => right; rfl
  | cons a t ih =>
    cases i with
    | zero => left; simp [List.getD_cons_zero]
    | succ i =>
      simp only [List.getD_cons_succ]
      rcases ih i with h | h
      · left; exact List.mem_cons_of_mem a h
      · right; exact h

theorem natSum_append (a b : List Nat) : natSum (a ++ b) = natSum a + natSum b := by
  induction a with
  | nil => simp [natSum]
  | cons x t ih => simp [natSum, ih, Nat.add_assoc]

theorem natSum_eq_zero (l : List Nat) (h : ∀ x ∈ l, x = 0) : natSum l = 0 := by
  induction l with
  | nil => rfl
  | cons x t ih =>
    simp only [natSum]
    rw [h x (List.mem_cons_self x t), ih fun y hy => h y (List.mem_cons_of_mem x hy)]

theorem mergeSum_append (a b : List Ev) : mergeSum (a ++ b) = mergeSum a + mergeSum b := by
  induction a with
  | nil => simp [mergeSum]
  | cons e t ih => cases e <;> simp [mergeSum, ih, Nat.add_assoc]

theorem mergeSum_mapMerge (f : Nat × Nat → Nat × Nat) (l : List (Nat × Nat)) :
    mergeSum (l.map fun q => Ev.merge (f q) q.2) = natSum (l.map (·.2)) := by
  induction l with
  | nil => rfl
  | cons q t ih => simp [mergeSum, natSum, ih]

/-! ### The merge loops versus the spec's single pass -/

theorem specPass_len (l : List Nat) : (specPass l).length ≤ l.length := by
  induction l using specPass.induct with
  | case1 => simp [specPass]
  | case2 x => simp [specPass]
  | case3 x rest ih =>
    simp only [specPass, if_pos rfl, List.length_cons]
    exact Nat.le_trans (Nat.succ_le_succ ih) (by omega)
  | case4 x y rest h ih =>
    simp only [specPass, if_neg h, List.length_cons]
    exact Nat.succ_le_succ ih

theorem mergeLoopL_eq (l acc : List Nat) (sc : Nat) (ev : List (Nat × Nat)) :
    mergeLoopL l acc sc ev = ⟨acc ++ specPass l, sc + specScore l, ev ++ specEvs acc.length l⟩ := by
  induction l using specPass.induct generalizing acc sc ev with
  | case1 => simp [mergeLoopL, specPass, specScore, specEvs]
  | case2 x => simp [mergeLoopL, specPass, specScore, specEvs]
  | case3 x rest ih =>
    simp only [mergeLoopL, specPass, specScore, specEvs, if_pos rfl]
    rw [ih]
    simp [List.append_assoc, Nat.add_assoc]
  | case4 x y rest h ih =>
    simp only [mergeLoopL, specPass, specScore, specEvs, if_neg h]
    rw [ih]
    simp [List.append_assoc]

theorem mergeLoopR_eq (l acc : List Nat) (sc : Nat) (ev : List (Nat × Nat)) :
    mergeLoopR l acc sc ev =
      ⟨(specPass l).reverse ++ acc, sc + specScore l, ev ++ specEvsR acc.length l⟩ := by
  induction l using specPass.induct generalizing acc sc ev with
  | case1 => simp [mergeLoopR, specPass, specScore, specEvsR]
  | case2 x => simp [mergeLoopR, specPass, specScore, specEvsR]
  | case3 x rest ih =>
    simp only [mergeLoopR, specPass, specScore, specEvsR, if_pos rfl]
    rw [ih]
    simp [List.append_assoc, Nat.add_assoc]
  | case4 x y rest h ih =>
    simp only [mergeLoopR, specPass, specScore, specEvsR, if_neg h]
    rw [ih]
    simp [List.append_assoc]

theorem collapseRowL_eq (row : List Nat) : collapseRowL row = specCollapse row := by
  unfold collapseRowL specCollapse
  rw [mergeLoopL_eq]
  simp

end Puzzle2048

namespace Puzzle2048

/-! ### Properties of the single merge pass -/

theorem specPass_nonzero (l : List Nat) (h : ∀ v ∈ l, v ≠ 0) :
    ∀ v ∈ specPass l, v ≠ 0 := by
  induction l using specPass.induct with
  | case1 => simp [specPass]
  | case2 x => simpa [specPass] using h
  | case3 x rest ih =>
    simp only [specPass, if_pos rfl]
    intro v hv
    rcases List.mem_cons.mp hv with hv | hv
    · subst hv
      have hx : x ≠ 0 := h x (by simp)
      omega
    · exact ih (fun w hw => h w (by simp [hw])) v hv
  | case4 x y rest hxy ih =>
    simp only [specPass, if_neg hxy]
    intro v hv
    rcases List.mem_cons.mp hv with hv | hv
    · subst hv; exact h v (by simp)
    · exact ih (fun w hw => h w (by rcases List.mem_cons.mp hw with h1 | h1 <;> simp [h1])) v hv

theorem specPass_mem (l : List Nat) (v : Nat) (hv : v ∈ specPass l) :
    v ∈ l ∨ ∃ w, w ∈ l ∧ v = w * 2 := by
  induction l using specPass.induct with
  | case1 => simp [specPass] at hv
  | case2 x => simp [specPass] at hv; simp [hv]
  | case3 x rest ih =>
    simp only [specPass, if_pos rfl] at hv
    rcases List.mem_cons.mp hv with hv | hv
    · right; exact ⟨x, by simp, hv⟩
    · rcases ih hv with h1 | ⟨w, hw, hws⟩
      · left; simp [h1]
      · right; exact ⟨w, by simp [hw], hws⟩
  | case4 x y rest hxy ih =>
    simp only [specPass, if_neg hxy] at hv
    rcases List.mem_cons.mp hv with hv | hv
    · left; simp [hv]
    · rcases ih hv with h1 | ⟨w, hw, hws⟩
      · left
        rcases List.mem_cons.mp h1 with h2 | h2 <;> simp [h2]
      · right
        refine ⟨w, ?_, hws⟩
        rcases List.mem_cons.mp hw with h2 | h2 <;> simp [h2]

theorem specPass_self (l : List Nat) (h : specPass l = l) :
    specScore l = 0 ∧ (∀ k, specEvs k l = []) ∧ (∀ k, specEvsR k l = []) := by
  induction l using specPass.induct with
  | case1 => simp [specScore, specEvs, specEvsR]
  | case2 x => simp [specScore, specEvs, specEvsR]
  | case3 x rest ih =>
    exfalso
    simp only [specPass, if_pos rfl] at h
    have h2 : specPass rest = x :: rest := (List.cons.injEq _ _ _ _ ▸ h).2
    have := specPass_len rest
    rw [h2] at this
    simp at this
  | case4 x y rest hxy ih =>
    simp only [specPass, if_neg hxy] at h
    have h2 : specPass (y :: rest) = y :: rest := (List.cons.injEq _ _ _ _ ▸ h).2
    have h3 := ih h2
    refine ⟨?_, ?_, ?_⟩
    · simp [specScore, if_neg hxy, h3.1]
    · intro k; simp [specEvs, if_neg hxy, h3.2.1]
    · intro k; simp [specEvsR, if_neg hxy, h3.2.2]

theorem specScore_evs (l : List Nat) : ∀ k, natSum ((specEvs k l).map (·.2)) = specScore l := by
  induction l using specPass.induct with
  | case1 => intro k; simp [specEvs, specScore, natSum]
  | case2 x => intro k; simp [specEvs, specScore, natSum]
  | case3 x rest ih =>
    intro k
    simp only [specEvs, specScore, if_pos rfl, List.map_cons]
    simp [natSum, ih]
  | case4 x y rest hxy ih =>
    intro k
    simp only [specEvs, specScore, if_neg hxy]
    exact ih (k + 1)

theorem specScore_evsR (l : List Nat) : ∀ k, natSum ((specEvsR k l).map (·.2)) = specScore l := by
  induction l using specPass.induct with
  | case1 => intro k; simp [specEvsR, specScore, natSum]
  | case2 x => intro k; simp [specEvsR, specScore, natSum]
  | case3 x rest ih =>
    intro k
    simp only [specEvsR, specScore, if_pos rfl, List.map_cons]
    simp [natSum, ih]
  | case4 x y rest hxy ih =>
    intro k
    simp only [specEvsR, specScore, if_neg hxy]
    exact ih (k + 1)

theorem specEvs_lb (l : List Nat) : ∀ k, ∀ p ∈ specEvs k l, k ≤ p.1 := by
  induction l using specPass.induct with
  | case1 => intro k p hp; simp [specEvs] at hp
  | case2 x => intro k p hp; simp [specEvs] at hp
  | case3 x rest ih =>
    intro k p hp
    simp only [specEvs, if_pos rfl] at hp
    rcases List.mem_cons.mp hp with hp | hp
    · simp [hp]
    · exact Nat.le_of_succ_le (ih (k + 1) p hp)
  | case4 x y rest hxy ih =>
    intro k p hp
    simp only [specEvs, if_neg hxy] at hp
    exact Nat.le_of_succ_le (ih (k + 1) p hp)

theorem specEvs_sorted (l : List Nat) : ∀ k, (specEvs k l).Pairwise fun a b => a.1 < b.1 := by
  induction l using specPass.induct with
  | case1 => intro k; simp [specEvs]
  | case2 x => intro k; simp [specEvs]
  | case3 x rest ih =>
    intro k
    simp only [specEvs, if_pos rfl]
    exact List.Pairwise.cons (fun p hp => Nat.lt_of_succ_le (specEvs_lb rest (k + 1) p hp)) (ih (k + 1))
  | case4 x y rest hxy ih =>
    intro k
    simp only [specEvs, if_neg hxy]
    exact ih (k + 1)

end Puzzle2048

namespace Puzzle2048

/-! ### Facts about the two row collapsers -/

theorem mem_filter_nz {row : List Nat} {v : Nat} (h : v ∈ row.filter (· != 0)) :
    v ∈ row ∧ v ≠ 0 := by
  simpa using List.mem_filter.mp h

theorem filter_nz_all (row : List Nat) : ∀ v ∈ row.filter (· != 0), v ≠ 0 :=
  fun _ hv => (mem_filter_nz hv).2

theorem filter_replicate_zero (n : Nat) : (List.replicate n 0).filter (· != 0) = [] := by
  induction n with
  | zero => rfl
  | succ n ih => simp [List.replicate_succ, ih]

theorem collapseRowR_eq (row : List Nat) :
    collapseRowR row =
      ⟨List.replicate (gridSize - (specPass ((row.filter (· != 0)).reverse)).length) 0 ++
         (specPass ((row.filter (· != 0)).reverse)).reverse,
       specScore ((row.filter (· != 0)).reverse),
       specEvsR 0 ((row.filter (· != 0)).reverse)⟩ := by
  unfold collapseRowR
  rw [mergeLoopR_eq]
  simp

theorem collapseRowL_len (row : List Nat) (h : row.length ≤ gridSize) :
    (collapseRowL row).merged.length = gridSize := by
  rw [collapseRowL_eq]
  have h1 : (specPass (row.filter (· != 0))).length ≤ gridSize :=
    Nat.le_trans (specPass_len _) (Nat.le_trans (List.length_filter_le _ _) h)
  simp [specCollapse]
  omega

theorem collapseRowR_len (row : List Nat) (h : row.length ≤ gridSize) :
    (collapseRowR row).merged.length = gridSize := by
  rw [collapseRowR_eq]
  have h1 : (specPass ((row.filter (· != 0)).reverse)).length ≤ gridSize := by
    refine Nat.le_trans (specPass_len _) ?_
    rw [List.length_reverse]
    exact Nat.le_trans (List.length_filter_le _ _) h
  simp
  omega

theorem collapseRowL_self (row : List Nat) (h : (collapseRowL row).merged = row) :
    (collapseRowL row).gained = 0 ∧ (collapseRowL row).evs = [] := by
  rw [collapseRowL_eq] at h ⊢
  simp only [specCollapse] at h ⊢
  have hf := congrArg (List.filter (· != 0)) h
  rw [List.filter_append, filter_replicate_zero, List.append_nil,
      List.filter_eq_self.mpr (fun a ha => by
        simpa using specPass_nonzero _ (filter_nz_all row) a ha)] at hf
  have := specPass_self _ hf
  simp [this.1, this.2.1]

theorem collapseRowR_self (row : List Nat) (h : (collapseRowR row).merged = row) :
    (collapseRowR row).gained = 0 ∧ (collapseRowR row).evs = [] := by
  rw [collapseRowR_eq] at h ⊢
  simp only at h ⊢
  have hf := congrArg (List.filter (· != 0)) h
  have hnz : ∀ a ∈ (specPass ((row.filter (· != 0)).reverse)).reverse, (a != 0) = true := by
    intro a ha
    simpa using specPass_nonzero _
      (fun v hv => (mem_filter_nz (List.mem_reverse.mp hv)).2) a (List.mem_reverse.mp ha)
  rw [List.filter_append, filter_replicate_zero, List.nil_append,
      List.filter_eq_self.mpr hnz] at hf
  have hrev : specPass ((row.filter (· != 0)).reverse) = (row.filter (· != 0)).reverse := by
    have := congrArg List.reverse hf
    simpa using this
  have := specPass_self _ hrev
  simp [this.1, this.2.2]

theorem collapseRowR_merged (row : List Nat) :
    (collapseRowR row).merged = ((collapseRowL row.reverse).merged).reverse := by
  rw [collapseRowR_eq, collapseRowL_eq]
  simp only [specCollapse, List.filter_reverse]
  rw [List.reverse_append, List.reverse_replicate]

theorem collapseRowR_gained (row : List Nat) :
    (collapseRowR row).gained = (collapseRowL row.reverse).gained := by
  rw [collapseRowR_eq, collapseRowL_eq]
  simp [specCollapse, List.filter_reverse]

theorem collapseRowL_pow2 (row : List Nat) (h : ∀ v ∈ row, pow2cell v) :
    ∀ v ∈ (collapseRowL row).merged, pow2cell v := by
  rw [collapseRowL_eq]
  simp only [specCollapse]
  intro v hv
  rcases List.mem_append.mp hv with hv | hv
  · rcases specPass_mem _ v hv with h1 | ⟨w, hw, hws⟩
    · exact h v (mem_filter_nz h1).1
    · intro _
      have hw2 : w ≠ 0 := (mem_filter_nz hw).2
      rcases h w (mem_filter_nz hw).1 hw2 with ⟨k, hk⟩
      exact ⟨k + 1, by rw [hws, hk]; ring⟩
  · intro hnz
    exact absurd (List.eq_of_mem_replicate hv) hnz

theorem collapseRowR_pow2 (row : List Nat) (h : ∀ v ∈ row, pow2cell v) :
    ∀ v ∈ (collapseRowR row).merged, pow2cell v := by
  rw [collapseRowR_merged]
  intro v hv
  exact collapseRowL_pow2 row.reverse
    (fun w hw => h w (List.mem_reverse.mp hw)) v (List.mem_reverse.mp hv)

end Puzzle2048

namespace Puzzle2048

/-! ### Grid-level move lemmas -/

theorem enum_eq_enumFrom {α : Type} (l : List α) : l.enum = l.enumFrom 0 := rfl

theorem enumFrom_snd_mem {α : Type} :
    ∀ (l : List α) (n : Nat) (p : Nat × α), p ∈ l.enumFrom n → p.2 ∈ l := by
  intro l
  induction l with
  | nil => intro n p hp; simp [List.enumFrom] at hp
  | cons a t ih =>
    intro n p hp
    rcases List.mem_cons.mp hp with hp | hp
    · subst hp; simp
    · exact List.mem_cons_of_mem a (ih (n + 1) p hp)

theorem map_self {α : Type} (l : List α) (f : α → α) (h : l.map f = l) :
    ∀ x ∈ l, f x = x := by
  induction l with
  | nil => simp
  | cons a t ih =>
    simp only [List.map_cons, List.cons.injEq] at h
    intro x hx
    rcases List.mem_cons.mp hx with hx | hx
    · rw [hx]; exact h.1
    · exact ih h.2 x hx

theorem flatten_nil_of {α : Type} (L : List (List α)) (h : ∀ x ∈ L, x = []) :
    L.flatten = [] := by
  induction L with
  | nil => rfl
  | cons a t ih =>
    rw [List.flatten_cons, h a (List.mem_cons_self a t), ih fun x hx => h x (List.mem_cons_of_mem a hx)]
    rfl

theorem moveLeft_grid (g : Grid) :
    (moveLeft g).1 = g.map fun row => (collapseRowL row).merged := by
  simp [moveLeft, List.map_map]

theorem moveLeft_score (g : Grid) :
    (moveLeft g).2.1 = natSum (g.map fun row => (collapseRowL row).gained) := by
  simp [moveLeft, List.map_map]; rfl

theorem moveRight_grid (g : Grid) :
    (moveRight g).1 = g.map fun row => (collapseRowR row).merged := by
  simp [moveRight, List.map_map]

theorem moveRight_score (g : Grid) :
    (moveRight g).2.1 = natSum (g.map fun row => (collapseRowR row).gained) := by
  simp [moveRight, List.map_map]; rfl

theorem moveLeft_self (g : Grid) (h : (moveLeft g).1 = g) :
    (moveLeft g).2.1 = 0 ∧ (moveLeft g).2.2 = [] := by
  rw [moveLeft_grid] at h
  have hrow : ∀ row ∈ g, (collapseRowL row).merged = row := map_self g _ h
  constructor
  · rw [moveLeft_score]
    refine natSum_eq_zero _ ?_
    intro x hx
    rcases List.mem_map.mp hx with ⟨row, hrow2, hx2⟩
    rw [← hx2]
    exact (collapseRowL_self row (hrow row hrow2)).1
  · show ((((g.map collapseRowL).enum).map fun p => p.2.evs.map fun q => Ev.merge (p.1, q.1) q.2).flatten) = []
    refine flatten_nil_of _ ?_
    intro x hx
    rcases List.mem_map.mp hx with ⟨p, hp, hx2⟩
    have hmem : p.2 ∈ g.map collapseRowL := enumFrom_snd_mem _ 0 p (enum_eq_enumFrom _ ▸ hp)
    rcases List.mem_map.mp hmem with ⟨row, hrowg, hpr⟩
    have : (collapseRowL row).evs = [] := (collapseRowL_self row (hrow row hrowg)).2
    rw [← hx2, ← hpr, this]
    rfl

theorem moveRight_self (g : Grid) (h : (moveRight g).1 = g) :
    (moveRight g).2.1 = 0 ∧ (moveRight g).2.2 = [] := by
  rw [moveRight_grid] at h
  have hrow : ∀ row ∈ g, (collapseRowR row).merged = row := map_self g _ h
  constructor
  · rw [moveRight_score]
    refine natSum_eq_zero _ ?_
    intro x hx
    rcases List.mem_map.mp hx with ⟨row, hrow2, hx2⟩
    rw [← hx2]
    exact (collapseRowR_self row (hrow row hrow2)).1
  · show ((((g.map collapseRowR).enum).map fun p => p.2.evs.map fun q => Ev.merge (p.1, q.1) q.2).flatten) = []
    refine flatten_nil_of _ ?_
    intro x hx
    rcases List.mem_map.mp hx with ⟨p, hp, hx2⟩
    have hmem : p.2 ∈ g.map collapseRowR := enumFrom_snd_mem _ 0 p (enum_eq_enumFrom _ ▸ hp)
    rcases List.mem_map.mp hmem with ⟨row, hrowg, hpr⟩
    have : (collapseRowR row).evs = [] := (collapseRowR_self row (hrow row hrowg)).2
    rw [← hx2, ← hpr, this]
    rfl

end Puzzle2048

namespace Puzzle2048

/-! ### Score gained equals the sum of the merge event values -/

theorem collapseRowL_sum_evs (row : List Nat) :
    natSum ((collapseRowL row).evs.map (·.2)) = (collapseRowL row).gained := by
  rw [collapseRowL_eq]
  exact specScore_evs _ 0

theorem collapseRowR_sum_evs (row : List Nat) :
    natSum ((collapseRowR row).evs.map (·.2)) = (collapseRowR row).gained := by
  rw [collapseRowR_eq]
  exact specScore_evsR _ 0

theorem evs_flat_sum (rs : List RowResult) (h : ∀ rr ∈ rs, natSum (rr.evs.map (·.2)) = rr.gained) :
    ∀ n, mergeSum (((rs.enumFrom n).map fun p => p.2.evs.map fun q => Ev.merge (p.1, q.1) q.2).flatten)
      = natSum (rs.map (·.gained)) := by
  induction rs with
  | nil => intro n; rfl
  | cons rr rest ih =>
    intro n
    simp only [List.enumFrom, List.map_cons, List.flatten_cons]
    rw [mergeSum_append]
    have h1 : mergeSum (rr.evs.map fun q => Ev.merge (n, q.1) q.2) = rr.gained :=
      (mergeSum_mapMerge (fun q => (n, q.1)) rr.evs).trans (h rr (by simp))
    rw [h1, ih (fun r hr => h r (by simp [hr])) (n + 1)]
    simp [natSum]

theorem moveLeft_score_evs (g : Grid) : (moveLeft g).2.1 = mergeSum (moveLeft g).2.2 := by
  have h : ∀ rr ∈ g.map collapseRowL, natSum (rr.evs.map (·.2)) = rr.gained := by
    intro rr hrr
    rcases List.mem_map.mp hrr with ⟨row, _, hr⟩
    rw [← hr]
    exact collapseRowL_sum_evs row
  exact ((evs_flat_sum _ h 0).trans rfl).symm

theorem moveRight_score_evs (g : Grid) : (moveRight g).2.1 = mergeSum (moveRight g).2.2 := by
  have h : ∀ rr ∈ g.map collapseRowR, natSum (rr.evs.map (·.2)) = rr.gained := by
    intro rr hrr
    rcases List.mem_map.mp hrr with ⟨row, _, hr⟩
    rw [← hr]
    exact collapseRowR_sum_evs row
  exact ((evs_flat_sum _ h 0).trans rfl).symm

theorem foldUp_tail (js : List Nat) :
    ∀ acc : Grid × Nat × List Ev,
      ∃ t, (js.foldl upStep acc).2.2 = acc.2.2 ++ t ∧
        (js.foldl upStep acc).2.1 = acc.2.1 + mergeSum t := by
  induction js with
  | nil => intro acc; exact ⟨[], by simp [mergeSum]⟩
  | cons j js ih =>
    intro acc
    rcases ih (upStep acc j) with ⟨t, ht, hs⟩
    refine ⟨((collapseRowL (colD acc.1 j)).evs.map fun q => Ev.merge (q.1, j) q.2) ++ t, ?_, ?_⟩
    · rw [List.foldl_cons, ht]
      simp [upStep, List.append_assoc]
    · rw [List.foldl_cons, hs]
      have h1 : mergeSum ((collapseRowL (colD acc.1 j)).evs.map fun q => Ev.merge (q.1, j) q.2)
          = (collapseRowL (colD acc.1 j)).gained :=
        (mergeSum_mapMerge (fun q => (q.1, j)) _).trans (collapseRowL_sum_evs _)
      rw [mergeSum_append, h1]
      simp only [upStep]
      omega

theorem foldDown_tail (js : List Nat) :
    ∀ acc : Grid × Nat × List Ev,
      ∃ t, (js.foldl downStep acc).2.2 = acc.2.2 ++ t ∧
        (js.foldl downStep acc).2.1 = acc.2.1 + mergeSum t := by
  induction js with
  | nil => intro acc; exact ⟨[], by simp [mergeSum]⟩
  | cons j js ih =>
    intro acc
    rcases ih (downStep acc j) with ⟨t, ht, hs⟩
    refine ⟨((collapseRowR (colD acc.1 j)).evs.map fun q => Ev.merge (q.1, j) q.2) ++ t, ?_, ?_⟩
    · rw [List.foldl_cons, ht]
      simp [downStep, List.append_assoc]
    · rw [List.foldl_cons, hs]
      have h1 : mergeSum ((collapseRowR (colD acc.1 j)).evs.map fun q => Ev.merge (q.1, j) q.2)
          = (collapseRowR (colD acc.1 j)).gained :=
        (mergeSum_mapMerge (fun q => (q.1, j)) _).trans (collapseRowR_sum_evs _)
      rw [mergeSum_append, h1]
      simp only [downStep]
      omega

theorem moveUp_score_evs (g : Grid) : (moveUp g).2.1 = mergeSum (moveUp g).2.2 := by
  rcases foldUp_tail (List.range gridSize) (g, 0, []) with ⟨t, ht, hs⟩
  have ht2 : (moveUp g).2.2 = t := by simpa [moveUp] using ht
  have hs2 : (moveUp g).2.1 = mergeSum t := by simpa [moveUp] using hs
  rw [ht2, hs2]

theorem moveDown_score_evs (g : Grid) : (moveDown g).2.1 = mergeSum (moveDown g).2.2 := by
  rcases foldDown_tail (List.range gridSize) (g, 0, []) with ⟨t, ht, hs⟩
  have ht2 : (moveDown g).2.2 = t := by simpa [moveDown] using ht
  have hs2 : (moveDown g).2.1 = mergeSum t := by simpa [moveDown] using hs
  rw [ht2, hs2]

theorem dirMove_score_evs (d : Direction) (g : Grid) :
    (dirMove d g).2.1 = mergeSum (dirMove d g).2.2 := by
  cases d with
  | left => exact moveLeft_score_evs g
  | right => exact moveRight_score_evs g
  | up => exact moveUp_score_evs g
  | down => exact moveDown_score_evs g

end Puzzle2048

namespace Puzzle2048

/-! ### State-level frame lemmas -/

theorem checkGameState_grid (s : GState) : (checkGameState s).grid = s.grid := rfl

theorem checkGameState_score (s : GState) : (checkGameState s).score = s.score := rfl

theorem checkGameState_moved (s : GState) : (checkGameState s).moved = s.moved := rfl

theorem checkGameState_anims (s : GState) : (checkGameState s).animations = s.animations := rfl

theorem checkGameState_won (s : GState) :
    (checkGameState s).won = (s.won || s.grid.any fun row => row.contains 2048) := rfl

theorem checkGameState_gameOver (s : GState) :
    (checkGameState s).gameOver = if isFull s.grid then !hasAdjPair s.grid else s.gameOver := rfl

theorem addRandomTile_gameOver (s : GState) (p : Nat) (f : Bool) :
    (addRandomTile s p f).gameOver = s.gameOver := by
  simp only [addRandomTile]
  split <;> rfl

theorem addRandomTile_won (s : GState) (p : Nat) (f : Bool) :
    (addRandomTile s p f).won = s.won := by
  simp only [addRandomTile]
  split <;> rfl

theorem addRandomTile_score (s : GState) (p : Nat) (f : Bool) :
    (addRandomTile s p f).score = s.score := by
  simp only [addRandomTile]
  split <;> rfl

theorem addRandomTile_moved (s : GState) (p : Nat) (f : Bool) :
    (addRandomTile s p f).moved = s.moved := by
  simp only [addRandomTile]
  split <;> rfl

theorem addRandomTile_anims (s : GState) (p : Nat) (f : Bool) :
    ∃ t, (addRandomTile s p f).animations = s.animations ++ t ∧ mergeSum t = 0 := by
  simp only [addRandomTile]
  split
  · exact ⟨[], by simp [mergeSum]⟩
  · exact ⟨_, rfl, rfl⟩

theorem moveTiles_frame (s : GState) (d : Direction) (p : Nat) (f : Bool) :
    ∃ t, (moveTiles s d p f).animations = s.animations ++ t ∧
      (moveTiles s d p f).score = s.score + mergeSum t := by
  simp only [moveTiles]
  split
  · exact ⟨(dirMove d s.grid).2.2, rfl, by rw [dirMove_score_evs]⟩
  · rcases addRandomTile_anims
      { s with
        grid := (dirMove d s.grid).1,
        score := s.score + (dirMove d s.grid).2.1,
        moved := true,
        animations := s.animations ++ (dirMove d s.grid).2.2 } p f with ⟨t, ht, hz⟩
    refine ⟨(dirMove d s.grid).2.2 ++ t, ?_, ?_⟩
    · rw [checkGameState_anims, ht, List.append_assoc]
    · rw [checkGameState_score, addRandomTile_score, mergeSum_append, hz,
        dirMove_score_evs]
      simp

theorem moveTiles_moved_iff (s : GState) (d : Direction) (p : Nat) (f : Bool) :
    (moveTiles s d p f).moved = true ↔ (dirMove d s.grid).1 ≠ s.grid := by
  simp only [moveTiles]
  split
  · rename_i h
    simp [h]
  · rename_i h
    rw [checkGameState_moved, addRandomTile_moved]
    simp [h]

end Puzzle2048

namespace Puzzle2048

/-! ### Claim C1 — the LineCollapser contract -/

/-- C1: for every 4-cell row, collapsing toward index 0 produces exactly the
spec's LineCollapser output — the non-empty values in order, one single
left-to-right pass in which each adjacent equal pair becomes one doubled
cell (scored by the doubled value, with one merge event, neither partner
merging again), padded on the right with empty cells to length 4; in
particular `[2,2,2,2] ↦ [4,4,0,0]` (never `[8,0,0,0]`), `[2,2,2,0] ↦
[4,2,0,0]` gaining 4, and `[0,2,0,2] ↦ [4,0,0,0]` gaining 4 with exactly
one merge event. -/
theorem c1_line_collapser (a b c d : Nat) :
    collapseRowL [a, b, c, d] = specCollapse [a, b, c, d] ∧
    (collapseRowL [a, b, c, d]).merged.length = 4 ∧
    collapseRowL [2, 2, 2, 2] = ⟨[4, 4, 0, 0], 8, [(0, 4), (1, 4)]⟩ ∧
    (collapseRowL [2, 2, 2, 2]).merged ≠ [8, 0, 0, 0] ∧
    collapseRowL [2, 2, 2, 0] = ⟨[4, 2, 0, 0], 4, [(0, 4)]⟩ ∧
    collapseRowL [0, 2, 0, 2] = ⟨[4, 0, 0, 0], 4, [(0, 4)]⟩ :=
  ⟨collapseRowL_eq _, collapseRowL_len _ (by simp [gridSize]),
   by decide, by decide, by decide, by decide⟩

/-! ### Claim C2 — win flag versus the reported terminal state -/

/-- C2 counterexample: a state whose win flag is set (the board holds a
2048 tile) but whose board is full with no equal neighbours is reported as
`Game Over`, not as a win: `_draw_ui` shows the win message only while
`won and not game_over`, so `Lost` does override `Won`. -/
theorem c2_lost_overrides_won_cex :
    (checkGameState
        ⟨[[2048, 4, 2, 4], [4, 2, 4, 2], [2, 4, 2, 4], [4, 2, 4, 2]],
          0, false, true, false, []⟩).won = true ∧
    reportedState
      (checkGameState
        ⟨[[2048, 4, 2, 4], [4, 2, 4, 2], [2, 4, 2, 4], [4, 2, 4, 2]],
          0, false, true, false, []⟩) = TerminalReport.lost := by
  decide

/-- C2 amended: the win flag itself is sticky — `_check_game_state` never
clears it — but in the reported terminal state the game-over message takes
precedence: whenever `game_over` is set, `_draw_ui` reports `Game Over`
even if `won` is also set. -/
theorem c2_won_sticky_lost_precedence (s : GState) :
    (s.won = true → (checkGameState s).won = true) ∧
    (s.gameOver = true → reportedState s = TerminalReport.lost) := by
  constructor
  · intro h
    rw [checkGameState_won, h]
    rfl
  · intro h
    simp [reportedState, h]

/-- Witness for the amended C2 at a concrete state: won flag set and board
full with no merge available. -/
theorem c2_won_sticky_lost_precedence_witness :
    (checkGameState
        ⟨[[2048, 4, 2, 4], [4, 2, 4, 2], [2, 4, 2, 4], [4, 2, 4, 2]],
          20480, true, true, false, []⟩).won = true ∧
    reportedState
      (⟨[[2048, 4, 2, 4], [4, 2, 4, 2], [2, 4, 2, 4], [4, 2, 4, 2]],
          20480, true, true, false, []⟩ : GState) = TerminalReport.lost :=
  ⟨(c2_won_sticky_lost_precedence _).1 rfl, (c2_won_sticky_lost_precedence _).2 rfl⟩

/-! ### Claim C4 — the spawner on a full board -/

/-- C4 counterexample: invoked on a board with zero empty cells,
`_add_random_tile` returns normally and leaves the state exactly unchanged
— there is no `NoEmptyCell` failure and no halt; the `if empty_cells:`
guard silently skips the whole body. -/
theorem c4_spawner_full_silent_cex :
    addRandomTile
        ⟨[[2, 4, 2, 4], [4, 2, 4, 2], [2, 4, 2, 4], [4, 2, 4, 2]],
          7, false, false, false, []⟩ 0 false
      = ⟨[[2, 4, 2, 4], [4, 2, 4, 2], [2, 4, 2, 4], [4, 2, 4, 2]],
          7, false, false, false, []⟩ := by
  decide

/-- C4 amended: when the tile spawner is invoked on a board with zero empty
cells it returns normally with the state unchanged — no tile is placed, no
event is appended, and no error is raised (the source has no failure
path). -/
theorem c4_spawner_full_noop (s : GState) (p : Nat) (f : Bool)
    (h : emptyCellsList s.grid = []) : addRandomTile s p f = s := by
  simp only [addRandomTile, h]
  rfl

/-- Witness for the amended C4 on a concrete full board. -/
theorem c4_spawner_full_noop_witness :
    addRandomTile
        ⟨[[4, 2, 4, 2], [2, 4, 2, 4], [4, 2, 4, 2], [2, 4, 2, 4]],
          3, false, true, false, []⟩ 5 true
      = ⟨[[4, 2, 4, 2], [2, 4, 2, 4], [4, 2, 4, 2], [2, 4, 2, 4]],
          3, false, true, false, []⟩ :=
  c4_spawner_full_noop _ 5 true (by decide)

/-! ### Claim C8 — score accounting -/

/-- C8: for every move applied to every state, the score never decreases,
and it increases by exactly the sum of the resulting (doubled) values of
the merge events recorded during that move (the spawn event contributes
nothing); a move with no merges leaves the score unchanged. -/
theorem c8_score_delta (s : GState) (d : Direction) (p : Nat) (f : Bool) :
    s.score ≤ (handleMove s d p f).score ∧
    (handleMove s d p f).score
      = s.score + mergeSum ((handleMove s d p f).animations.drop s.animations.length) := by
  by_cases hg : s.gameOver = true
  · simp only [handleMove, if_pos hg]
    simp [List.drop_length, mergeSum]
  · simp only [handleMove, if_neg hg]
    rcases moveTiles_frame s d p f with ⟨t, ht, hs⟩
    rw [ht, hs, List.drop_left]
    omega

end Puzzle2048

namespace Puzzle2048

/-! ### Claims C7 and C10 -/

theorem getD_mem_of_lt {α : Type} (l : List α) (i : Nat) (d : α) (h : i < l.length) :
    l.getD i d ∈ l := by
  induction l generalizing i with
  | nil => simp at h
  | cons a t ih =>
    cases i with
    | zero => simp [List.getD_cons_zero]
    | succ i =>
      simp only [List.getD_cons_succ]
      exact List.mem_cons_of_mem a (ih i (by simpa using h))

theorem emptyCells_mem (g : Grid) (c : Nat × Nat) (hc : c ∈ emptyCellsList g) :
    c.1 < gridSize ∧ c.2 < gridSize ∧ cellD g c.1 c.2 = 0 := by
  simp only [emptyCellsList, List.mem_filter] at hc
  obtain ⟨hmem, hz⟩ := hc
  rcases List.mem_flatten.mp hmem with ⟨l, hl, hcl⟩
  rcases List.mem_map.mp hl with ⟨i, hi, hli⟩
  rw [← hli] at hcl
  rcases List.mem_map.mp hcl with ⟨j, hj, hji⟩
  rw [← hji]
  refine ⟨by simpa using hi, by simpa using hj, ?_⟩
  rw [← hji] at hz
  simpa using hz

theorem wf_iff (g : Grid) (h : wf g = true) :
    g.length = 4 ∧ ∀ row ∈ g, row.length = 4 := by
  simp only [wf, gridSize, Bool.and_eq_true, beq_iff_eq, List.all_eq_true] at h
  exact ⟨h.1, fun row hr => by simpa using h.2 row hr⟩

/-- C7: after a changed move from a live state, the game-over flag holds iff
the resulting board has zero empty cells and no two horizontally or
vertically adjacent cells share a value; in particular the saturated board
`[[2,4,2,4],[4,2,4,2],[2,4,2,4],[4,2,4,2]]` is classified lost, while a
board with an empty cell, or a full board with an equal adjacent pair, is
not. -/
theorem c7_lost_characterisation (s : GState) (d : Direction) (p : Nat) (f : Bool)
    (hg : s.gameOver = false) (hm : (moveTiles s d p f).moved = true) :
    ((moveTiles s d p f).gameOver = true ↔
      isFull (moveTiles s d p f).grid = true ∧ hasAdjPair (moveTiles s d p f).grid = false) ∧
    (checkGameState
      ⟨[[2, 4, 2, 4], [4, 2, 4, 2], [2, 4, 2, 4], [4, 2, 4, 2]],
        0, false, false, false, []⟩).gameOver = true ∧
    (checkGameState
      ⟨[[2, 4, 2, 4], [4, 2, 4, 2], [2, 4, 2, 0], [4, 2, 4, 2]],
        0, false, false, false, []⟩).gameOver = false ∧
    (checkGameState
      ⟨[[2, 2, 2, 4], [4, 2, 4, 2], [2, 4, 2, 4], [4, 2, 4, 2]],
        0, false, false, false, []⟩).gameOver = false := by
  refine ⟨?_, by decide, by decide, by decide⟩
  have hne := (moveTiles_moved_iff s d p f).mp hm
  simp only [moveTiles, if_neg hne]
  rw [checkGameState_gameOver, checkGameState_grid]
  have hg2 :
      (addRandomTile
        { s with
          grid := (dirMove d s.grid).1,
          score := s.score + (dirMove d s.grid).2.1,
          moved := true,
          animations := s.animations ++ (dirMove d s.grid).2.2 } p f).gameOver = false := by
    rw [addRandomTile_gameOver]
    exact hg
  split
  · rename_i hful
    simp [hful]
  · rename_i hful
    simp only [hg2]
    simp only [Bool.false_eq_true, false_iff]
    intro hcon
    exact hful hcon.1

/-- Witness for C7: a concrete changed move from a live state. -/
theorem c7_lost_characterisation_witness :
    ((moveTiles (⟨[[2, 2, 0, 0], [0, 0, 0, 0], [0, 0, 0, 0], [0, 0, 0, 0]], 0, false, false, false, []⟩ : GState) Direction.left 0 false).gameOver = true ↔
      isFull (moveTiles (⟨[[2, 2, 0, 0], [0, 0, 0, 0], [0, 0, 0, 0], [0, 0, 0, 0]], 0, false, false, false, []⟩ : GState) Direction.left 0 false).grid = true ∧ hasAdjPair (moveTiles (⟨[[2, 2, 0, 0], [0, 0, 0, 0], [0, 0, 0, 0], [0, 0, 0, 0]], 0, false, false, false, []⟩ : GState) Direction.left 0 false).grid = false) ∧
    (checkGameState
      ⟨[[2, 4, 2, 4], [4, 2, 4, 2], [2, 4, 2, 4], [4, 2, 4, 2]],
        0, false, false, false, []⟩).gameOver = true ∧
    (checkGameState
      ⟨[[2, 4, 2, 4], [4, 2, 4, 2], [2, 4, 2, 0], [4, 2, 4, 2]],
        0, false, false, false, []⟩).gameOver = false ∧
    (checkGameState
      ⟨[[2, 2, 2, 4], [4, 2, 4, 2], [2, 4, 2, 4], [4, 2, 4, 2]],
        0, false, false, false, []⟩).gameOver = false :=
  c7_lost_characterisation (⟨[[2, 2, 0, 0], [0, 0, 0, 0], [0, 0, 0, 0], [0, 0, 0, 0]], 0, false, false, false, []⟩ : GState) Direction.left 0 false rfl (by decide)

/-- C10: on a board with at least one empty cell, the spawner changes
exactly one cell — a previously empty one — to 2 or 4, appends exactly one
spawn event for that cell, and leaves every other cell, the score, the win
flag, the game-over flag and the moved flag unchanged. -/
theorem c10_spawner_one_cell (s : GState) (p : Nat) (f : Bool) (i j : Nat)
    (hwf : wf s.grid = true) (hne : emptyCellsList s.grid ≠ []) :
    spawnCell s.grid p ∈ emptyCellsList s.grid ∧
    cellD s.grid (spawnCell s.grid p).1 (spawnCell s.grid p).2 = 0 ∧
    cellD (addRandomTile s p f).grid (spawnCell s.grid p).1 (spawnCell s.grid p).2
      = (if f then 4 else 2) ∧
    ((if f then 4 else 2) = (2 : Nat) ∨ (if f then 4 else 2) = (4 : Nat)) ∧
    (¬(i = (spawnCell s.grid p).1 ∧ j = (spawnCell s.grid p).2) →
      cellD (addRandomTile s p f).grid i j = cellD s.grid i j) ∧
    (addRandomTile s p f).animations
      = s.animations ++ [Ev.spawn (spawnCell s.grid p) (if f then 4 else 2)] ∧
    (addRandomTile s p f).score = s.score ∧
    (addRandomTile s p f).won = s.won ∧
    (addRandomTile s p f).gameOver = s.gameOver ∧
    (addRandomTile s p f).moved = s.moved := by
  have hlen : 0 < (emptyCellsList s.grid).length := List.length_pos.mpr hne
  have hlt : p % (emptyCellsList s.grid).length < (emptyCellsList s.grid).length :=
    Nat.mod_lt _ hlen
  have hmem : spawnCell s.grid p ∈ emptyCellsList s.grid := getD_mem_of_lt _ _ _ hlt
  obtain ⟨h1, h2, h0⟩ := emptyCells_mem _ _ hmem
  obtain ⟨hglen, hrows⟩ := wf_iff _ hwf
  have ha : (spawnCell s.grid p).1 < s.grid.length := by rw [hglen]; exact h1
  have hrow : s.grid.getD (spawnCell s.grid p).1 [] ∈ s.grid := getD_mem_of_lt _ _ _ ha
  have hb : (spawnCell s.grid p).2 < (s.grid.getD (spawnCell s.grid p).1 []).length := by
    rw [hrows _ hrow]
    exact h2
  have hunfold :
      addRandomTile s p f =
        { s with
          grid := setCell s.grid (spawnCell s.grid p).1 (spawnCell s.grid p).2
            (if f then 4 else 2),
          animations := s.animations ++ [Ev.spawn (spawnCell s.grid p) (if f then 4 else 2)] } := by
    simp only [addRandomTile, if_neg hne]
    rfl
  rw [hunfold]
  refine ⟨hmem, h0, ?_, ?_, ?_, rfl, rfl, rfl, rfl, rfl⟩
  · show cellD (setCell s.grid _ _ _) _ _ = _
    unfold cellD setCell
    rw [getD_set_self _ _ _ _ ha, getD_set_self _ _ _ _ hb]
  · cases f <;> simp
  · intro hij
    show cellD (setCell s.grid _ _ _) i j = cellD s.grid i j
    unfold cellD setCell
    by_cases hi : (spawnCell s.grid p).1 = i
    · have hj : (spawnCell s.grid p).2 ≠ j := by
        intro hj2
        exact hij ⟨hi.symm, hj2.symm⟩
      rw [← hi, getD_set_self _ _ _ _ ha, getD_set_ne _ _ _ _ _ hj]
    · rw [getD_set_ne _ _ _ _ _ hi]

/-- Witness for C10 on a concrete one-tile board. -/
theorem c10_spawner_one_cell_witness :
    spawnCell [[2, 0, 0, 0], [0, 0, 0, 0], [0, 0, 0, 0], [0, 0, 0, 0]] 5 ∈ emptyCellsList [[2, 0, 0, 0], [0, 0, 0, 0], [0, 0, 0, 0], [0, 0, 0, 0]] ∧
    cellD [[2, 0, 0, 0], [0, 0, 0, 0], [0, 0, 0, 0], [0, 0, 0, 0]] (spawnCell [[2, 0, 0, 0], [0, 0, 0, 0], [0, 0, 0, 0], [0, 0, 0, 0]] 5).1 (spawnCell [[2, 0, 0, 0], [0, 0, 0, 0], [0, 0, 0, 0], [0, 0, 0, 0]] 5).2 = 0 ∧
    cellD (addRandomTile (⟨[[2, 0, 0, 0], [0, 0, 0, 0], [0, 0, 0, 0], [0, 0, 0, 0]], 0, false, false, false, []⟩ : GState) 5 true).grid
        (spawnCell [[2, 0, 0, 0], [0, 0, 0, 0], [0, 0, 0, 0], [0, 0, 0, 0]] 5).1 (spawnCell [[2, 0, 0, 0], [0, 0, 0, 0], [0, 0, 0, 0], [0, 0, 0, 0]] 5).2 = (if true then 4 else 2) ∧
    ((if true then 4 else 2) = (2 : Nat) ∨ (if true then 4 else 2) = (4 : Nat)) ∧
    (¬(0 = (spawnCell [[2, 0, 0, 0], [0, 0, 0, 0], [0, 0, 0, 0], [0, 0, 0, 0]] 5).1 ∧ 0 = (spawnCell [[2, 0, 0, 0], [0, 0, 0, 0], [0, 0, 0, 0], [0, 0, 0, 0]] 5).2) →
      cellD (addRandomTile (⟨[[2, 0, 0, 0], [0, 0, 0, 0], [0, 0, 0, 0], [0, 0, 0, 0]], 0, false, false, false, []⟩ : GState) 5 true).grid 0 0 = cellD [[2, 0, 0, 0], [0, 0, 0, 0], [0, 0, 0, 0], [0, 0, 0, 0]] 0 0) ∧
    (addRandomTile (⟨[[2, 0, 0, 0], [0, 0, 0, 0], [0, 0, 0, 0], [0, 0, 0, 0]], 0, false, false, false, []⟩ : GState) 5 true).animations
      = [] ++ [Ev.spawn (spawnCell [[2, 0, 0, 0], [0, 0, 0, 0], [0, 0, 0, 0], [0, 0, 0, 0]] 5) (if true then 4 else 2)] ∧
    (addRandomTile (⟨[[2, 0, 0, 0], [0, 0, 0, 0], [0, 0, 0, 0], [0, 0, 0, 0]], 0, false, false, false, []⟩ : GState) 5 true).score = 0 ∧
    (addRandomTile (⟨[[2, 0, 0, 0], [0, 0, 0, 0], [0, 0, 0, 0], [0, 0, 0, 0]], 0, false, false, false, []⟩ : GState) 5 true).won = false ∧
    (addRandomTile (⟨[[2, 0, 0, 0], [0, 0, 0, 0], [0, 0, 0, 0], [0, 0, 0, 0]], 0, false, false, false, []⟩ : GState) 5 true).gameOver = false ∧
    (addRandomTile (⟨[[2, 0, 0, 0], [0, 0, 0, 0], [0, 0, 0, 0], [0, 0, 0, 0]], 0, false, false, false, []⟩ : GState) 5 true).moved = false :=
  c10_spawner_one_cell (⟨[[2, 0, 0, 0], [0, 0, 0, 0], [0, 0, 0, 0], [0, 0, 0, 0]], 0, false, false, false, []⟩ : GState) 5 true 0 0 (by decide) (by decide)

end Puzzle2048

namespace Puzzle2048

/-! ### Claim C5 — event order -/

theorem collapseRowL_evs_sorted (row : List Nat) :
    (collapseRowL row).evs.Pairwise fun a b => a.1 < b.1 := by
  rw [collapseRowL_eq]
  exact specEvs_sorted _ 0

theorem evs_flat_lb (rs : List RowResult) :
    ∀ (n : Nat) (e : Ev),
      e ∈ ((rs.enumFrom n).map fun p => p.2.evs.map fun q => Ev.merge (p.1, q.1) q.2).flatten →
      n ≤ (evPos e).1 := by
  induction rs with
  | nil => intro n e he; simp [List.enumFrom] at he
  | cons rr rest ih =>
    intro n e he
    simp only [List.enumFrom, List.map_cons, List.flatten_cons, List.mem_append] at he
    rcases he with he | he
    · rcases List.mem_map.mp he with ⟨q, hq, hqe⟩
      rw [← hqe]
      simp [evPos]
    · exact Nat.le_of_succ_le (ih (n + 1) e he)

theorem evs_flat_sorted (rs : List RowResult)
    (h : ∀ rr ∈ rs, rr.evs.Pairwise fun a b => a.1 < b.1) :
    ∀ n, scanOrdered
      (((rs.enumFrom n).map fun p => p.2.evs.map fun q => Ev.merge (p.1, q.1) q.2).flatten) := by
  induction rs with
  | nil => intro n; simp [List.enumFrom, scanOrdered]
  | cons rr rest ih =>
    intro n
    simp only [List.enumFrom, List.map_cons, List.flatten_cons]
    rw [scanOrdered, List.pairwise_append]
    refine ⟨?_, ih (fun r hr => h r (by simp [hr])) (n + 1), ?_⟩
    · exact List.Pairwise.map _ (fun a b hab => Or.inr ⟨rfl, hab⟩) (h rr (by simp))
    · intro a ha b hb
      rcases List.mem_map.mp ha with ⟨q, hq, hqa⟩
      have hbn : n + 1 ≤ (evPos b).1 := evs_flat_lb rest (n + 1) b hb
      rw [← hqa]
      left
      show n < (evPos b).1
      omega

/-- C5 counterexample: moving Right on a board whose first row is
`[2,2,4,4]` records its two merge events at cells `(0,3)` then `(0,2)` —
right-to-left within the row — so the events of a move are not in
left-to-right, top-to-bottom scan order for every direction. -/
theorem c5_scan_order_cex :
    (moveRight [[2, 2, 4, 4], [0, 0, 0, 0], [0, 0, 0, 0], [0, 0, 0, 0]]).2.2
        = [Ev.merge (0, 3) 8, Ev.merge (0, 2) 4] ∧
    ¬ scanOrdered (moveRight [[2, 2, 4, 4], [0, 0, 0, 0], [0, 0, 0, 0], [0, 0, 0, 0]]).2.2 := by
  constructor
  · decide
  · decide

/-- C5 amended: for Left moves the merge events are recorded in
left-to-right, top-to-bottom scan order of the cells they refer to (rows in
order, strictly increasing column within a row); the other directions emit
their per-line processing order instead, which need not be row-major. -/
theorem c5_left_events_row_major (g : Grid) : scanOrdered (moveLeft g).2.2 := by
  show scanOrdered
    (((g.map collapseRowL).enum).map fun p => p.2.evs.map fun q => Ev.merge (p.1, q.1) q.2).flatten
  rw [enum_eq_enumFrom]
  refine evs_flat_sorted _ ?_ 0
  intro rr hrr
  rcases List.mem_map.mp hrr with ⟨row, _, hr⟩
  rw [← hr]
  exact collapseRowL_evs_sorted row

end Puzzle2048

namespace Puzzle2048

/-! ### Claim C6 — tile-value invariant -/

theorem colD_pow2 (g : Grid) (j : Nat) (h : ∀ row ∈ g, ∀ v ∈ row, pow2cell v) :
    ∀ v ∈ colD g j, pow2cell v := by
  intro v hv
  rcases List.mem_map.mp hv with ⟨row, hrow, hvr⟩
  rcases getD_mem_or row j 0 with hm | hm
  · rw [← hvr]; exact h row hrow _ hm
  · rw [← hvr, hm]
    intro hz
    exact absurd rfl hz

theorem writeCol_pow2 (g : Grid) (j : Nat) (m : List Nat)
    (hg : ∀ row ∈ g, ∀ v ∈ row, pow2cell v) (hm : ∀ v ∈ m, pow2cell v) :
    ∀ row ∈ writeCol g j m, ∀ v ∈ row, pow2cell v := by
  intro row hrow v hv
  rcases List.mem_map.mp hrow with ⟨p, hp, hpr⟩
  rw [← hpr] at hv
  rcases List.mem_or_eq_of_mem_set hv with hv2 | hv2
  · exact hg p.2 (enumFrom_snd_mem _ 0 p (enum_eq_enumFrom _ ▸ hp)) v hv2
  · rcases getD_mem_or m p.1 0 with hm2 | hm2
    · rw [hv2]; exact hm _ hm2
    · rw [hv2, hm2]
      intro hz
      exact absurd rfl hz

theorem foldUp_pow2 (js : List Nat) :
    ∀ acc : Grid × Nat × List Ev, (∀ row ∈ acc.1, ∀ v ∈ row, pow2cell v) →
      ∀ row ∈ (js.foldl upStep acc).1, ∀ v ∈ row, pow2cell v := by
  induction js with
  | nil => intro acc h; exact h
  | cons j js ih =>
    intro acc h
    rw [List.foldl_cons]
    refine ih (upStep acc j) ?_
    exact writeCol_pow2 _ _ _ h (collapseRowL_pow2 _ (colD_pow2 _ _ h))

theorem foldDown_pow2 (js : List Nat) :
    ∀ acc : Grid × Nat × List Ev, (∀ row ∈ acc.1, ∀ v ∈ row, pow2cell v) →
      ∀ row ∈ (js.foldl downStep acc).1, ∀ v ∈ row, pow2cell v := by
  induction js with
  | nil => intro acc h; exact h
  | cons j js ih =>
    intro acc h
    rw [List.foldl_cons]
    refine ih (downStep acc j) ?_
    exact writeCol_pow2 _ _ _ h (collapseRowR_pow2 _ (colD_pow2 _ _ h))

theorem dirMove_pow2 (d : Direction) (g : Grid) (h : ∀ row ∈ g, ∀ v ∈ row, pow2cell v) :
    ∀ row ∈ (dirMove d g).1, ∀ v ∈ row, pow2cell v := by
  cases d with
  | left =>
    show ∀ row ∈ (moveLeft g).1, _
    rw [moveLeft_grid]
    intro row hrow
    rcases List.mem_map.mp hrow with ⟨r0, hr0, hr⟩
    rw [← hr]
    exact collapseRowL_pow2 r0 (h r0 hr0)
  | right =>
    show ∀ row ∈ (moveRight g).1, _
    rw [moveRight_grid]
    intro row hrow
    rcases List.mem_map.mp hrow with ⟨r0, hr0, hr⟩
    rw [← hr]
    exact collapseRowR_pow2 r0 (h r0 hr0)
  | up => exact foldUp_pow2 _ (g, 0, []) h
  | down => exact foldDown_pow2 _ (g, 0, []) h

theorem setCell_pow2 (g : Grid) (a b v : Nat)
    (hg : ∀ row ∈ g, ∀ w ∈ row, pow2cell w) (hv : pow2cell v) :
    ∀ row ∈ setCell g a b v, ∀ w ∈ row, pow2cell w := by
  intro row hrow w hw
  rcases List.mem_or_eq_of_mem_set hrow with hr | hr
  · exact hg row hr w hw
  · rw [hr] at hw
    rcases List.mem_or_eq_of_mem_set hw with hw2 | hw2
    · rcases getD_mem_or g a [] with hm | hm
      · exact hg _ hm w hw2
      · rw [hm] at hw2
        simp at hw2
    · rw [hw2]; exact hv

theorem addRandomTile_pow2 (s : GState) (p : Nat) (f : Bool)
    (h : ∀ row ∈ s.grid, ∀ v ∈ row, pow2cell v) :
    ∀ row ∈ (addRandomTile s p f).grid, ∀ v ∈ row, pow2cell v := by
  simp only [addRandomTile]
  split
  · exact h
  · refine setCell_pow2 _ _ _ _ h ?_
    cases f
    · exact fun _ => ⟨0, rfl⟩
    · exact fun _ => ⟨1, rfl⟩

theorem reach_pow2 (s : GState) (h : Reachable s) :
    ∀ row ∈ s.grid, ∀ v ∈ row, pow2cell v := by
  induction h with
  | init p1 f1 p2 f2 =>
    refine addRandomTile_pow2 _ _ _ (addRandomTile_pow2 _ _ _ ?_)
    intro row hrow v hv
    have h1 : row = List.replicate gridSize 0 := List.eq_of_mem_replicate hrow
    rw [h1] at hv
    have h2 : v = 0 := List.eq_of_mem_replicate hv
    rw [h2]
    intro hz
    exact absurd rfl hz
  | step s d pick four hr ih =>
    simp only [handleMove]
    split
    · exact ih
    · simp only [moveTiles]
      split
      · exact dirMove_pow2 d s.grid ih
      · rw [checkGameState_grid]
        exact addRandomTile_pow2 _ _ _ (dirMove_pow2 d s.grid ih)

/-- C6: on every board reachable from initialization by any sequence of
moves, with any random spawn outcomes, every non-empty cell's value is a
power of two that is at least 2. -/
theorem c6_tile_value_invariant (s : GState) (i j : Nat) (h : Reachable s)
    (hnz : cellD s.grid i j ≠ 0) : ∃ k, cellD s.grid i j = 2 ^ (k + 1) := by
  have hall := reach_pow2 s h
  unfold cellD at hnz ⊢
  rcases getD_mem_or s.grid i [] with hrow | hrow
  · rcases getD_mem_or (s.grid.getD i []) j 0 with hv | hv
    · exact hall _ hrow _ hv hnz
    · exact absurd hv hnz
  · rw [hrow] at hnz
    simp at hnz

/-- Witness for C6: the initial board holds a 2 at cell (0,0). -/
theorem c6_tile_value_invariant_witness :
    ∃ k, cellD (initState 0 false 0 false).grid 0 0 = 2 ^ (k + 1) :=
  c6_tile_value_invariant _ 0 0 (Reachable.init 0 false 0 false) (by decide)

end Puzzle2048

namespace Puzzle2048

/-! ### Claim C9 — canonical transforms -/

theorem rev4 (w x y z : Nat) : ([w, x, y, z] : List Nat).reverse = [z, y, x, w] := rfl

theorem moveRight_conj (g : Grid) : (moveRight g).1 = specMoveRightG g := by
  rw [moveRight_grid]
  unfold specMoveRightG
  simp only [collapseRowR_merged]

theorem moveRight_conj_score (g : Grid) : (moveRight g).2.1 = specMoveRightScore g := by
  rw [moveRight_score]
  unfold specMoveRightScore
  simp only [collapseRowR_gained]

set_option maxHeartbeats 8000000 in
theorem moveUp_conj16 (x0 x1 x2 x3 x4 x5 x6 x7 x8 x9 x10 x11 x12 x13 x14 x15 : Nat) :
    (moveUp (mkGrid x0 x1 x2 x3 x4 x5 x6 x7 x8 x9 x10 x11 x12 x13 x14 x15)).1 = specMoveUpG (mkGrid x0 x1 x2 x3 x4 x5 x6 x7 x8 x9 x10 x11 x12 x13 x14 x15) := rfl

set_option maxHeartbeats 8000000 in
theorem moveUp_conj16_score (x0 x1 x2 x3 x4 x5 x6 x7 x8 x9 x10 x11 x12 x13 x14 x15 : Nat) :
    (moveUp (mkGrid x0 x1 x2 x3 x4 x5 x6 x7 x8 x9 x10 x11 x12 x13 x14 x15)).2.1 = specMoveUpScore (mkGrid x0 x1 x2 x3 x4 x5 x6 x7 x8 x9 x10 x11 x12 x13 x14 x15) := by
  have hsrc : (moveUp (mkGrid x0 x1 x2 x3 x4 x5 x6 x7 x8 x9 x10 x11 x12 x13 x14 x15)).2.1 =
      0 + (collapseRowL [x0, x4, x8, x12]).gained + (collapseRowL [x1, x5, x9, x13]).gained + (collapseRowL [x2, x6, x10, x14]).gained + (collapseRowL [x3, x7, x11, x15]).gained := rfl
  have hspec : specMoveUpScore (mkGrid x0 x1 x2 x3 x4 x5 x6 x7 x8 x9 x10 x11 x12 x13 x14 x15) =
      (collapseRowL [x0, x4, x8, x12]).gained + ((collapseRowL [x1, x5, x9, x13]).gained + ((collapseRowL [x2, x6, x10, x14]).gained + ((collapseRowL [x3, x7, x11, x15]).gained + 0))) := rfl
  rw [hsrc, hspec]
  omega

set_option maxHeartbeats 8000000 in
theorem moveDown_conj16 (x0 x1 x2 x3 x4 x5 x6 x7 x8 x9 x10 x11 x12 x13 x14 x15 : Nat) :
    (moveDown (mkGrid x0 x1 x2 x3 x4 x5 x6 x7 x8 x9 x10 x11 x12 x13 x14 x15)).1 = specMoveDownG (mkGrid x0 x1 x2 x3 x4 x5 x6 x7 x8 x9 x10 x11 x12 x13 x14 x15) := by
  have hsrc : (moveDown (mkGrid x0 x1 x2 x3 x4 x5 x6 x7 x8 x9 x10 x11 x12 x13 x14 x15)).1 =
      transposeG ((transposeG (mkGrid x0 x1 x2 x3 x4 x5 x6 x7 x8 x9 x10 x11 x12 x13 x14 x15)).map fun c => (collapseRowR c).merged) := rfl
  rw [hsrc]
  unfold specMoveDownG
  simp only [collapseRowR_merged]

set_option maxHeartbeats 8000000 in
theorem moveDown_conj16_score (x0 x1 x2 x3 x4 x5 x6 x7 x8 x9 x10 x11 x12 x13 x14 x15 : Nat) :
    (moveDown (mkGrid x0 x1 x2 x3 x4 x5 x6 x7 x8 x9 x10 x11 x12 x13 x14 x15)).2.1 = specMoveDownScore (mkGrid x0 x1 x2 x3 x4 x5 x6 x7 x8 x9 x10 x11 x12 x13 x14 x15) := by
  have hsrc : (moveDown (mkGrid x0 x1 x2 x3 x4 x5 x6 x7 x8 x9 x10 x11 x12 x13 x14 x15)).2.1 =
      0 + (collapseRowR [x0, x4, x8, x12]).gained + (collapseRowR [x1, x5, x9, x13]).gained + (collapseRowR [x2, x6, x10, x14]).gained + (collapseRowR [x3, x7, x11, x15]).gained := rfl
  have hspec : specMoveDownScore (mkGrid x0 x1 x2 x3 x4 x5 x6 x7 x8 x9 x10 x11 x12 x13 x14 x15) =
      (collapseRowL [x12, x8, x4, x0]).gained + ((collapseRowL [x13, x9, x5, x1]).gained + ((collapseRowL [x14, x10, x6, x2]).gained + ((collapseRowL [x15, x11, x7, x3]).gained + 0))) := rfl
  rw [hsrc, hspec]
  simp only [collapseRowR_gained, rev4]
  omega

/-- C9: on every 4×4 grid, each directional move of the source equals the
canonical collapse-toward-index-0 operation conjugated by that direction's
transform, with the same resulting grid and the same score delta: Left is
the canonical operation itself, Right is row reversal before and after,
Up is transposition before and after, and Down is the transpose-and-reverse
conjugation. -/
theorem c9_direction_conjugation (x0 x1 x2 x3 x4 x5 x6 x7 x8 x9 x10 x11 x12 x13 x14 x15 : Nat) :
    (moveLeft (mkGrid x0 x1 x2 x3 x4 x5 x6 x7 x8 x9 x10 x11 x12 x13 x14 x15)).1 = specMoveLeftG (mkGrid x0 x1 x2 x3 x4 x5 x6 x7 x8 x9 x10 x11 x12 x13 x14 x15) ∧
    (moveLeft (mkGrid x0 x1 x2 x3 x4 x5 x6 x7 x8 x9 x10 x11 x12 x13 x14 x15)).2.1 = specMoveLeftScore (mkGrid x0 x1 x2 x3 x4 x5 x6 x7 x8 x9 x10 x11 x12 x13 x14 x15) ∧
    (moveRight (mkGrid x0 x1 x2 x3 x4 x5 x6 x7 x8 x9 x10 x11 x12 x13 x14 x15)).1 = specMoveRightG (mkGrid x0 x1 x2 x3 x4 x5 x6 x7 x8 x9 x10 x11 x12 x13 x14 x15) ∧
    (moveRight (mkGrid x0 x1 x2 x3 x4 x5 x6 x7 x8 x9 x10 x11 x12 x13 x14 x15)).2.1 = specMoveRightScore (mkGrid x0 x1 x2 x3 x4 x5 x6 x7 x8 x9 x10 x11 x12 x13 x14 x15) ∧
    (moveUp (mkGrid x0 x1 x2 x3 x4 x5 x6 x7 x8 x9 x10 x11 x12 x13 x14 x15)).1 = specMoveUpG (mkGrid x0 x1 x2 x3 x4 x5 x6 x7 x8 x9 x10 x11 x12 x13 x14 x15) ∧
    (moveUp (mkGrid x0 x1 x2 x3 x4 x5 x6 x7 x8 x9 x10 x11 x12 x13 x14 x15)).2.1 = specMoveUpScore (mkGrid x0 x1 x2 x3 x4 x5 x6 x7 x8 x9 x10 x11 x12 x13 x14 x15) ∧
    (moveDown (mkGrid x0 x1 x2 x3 x4 x5 x6 x7 x8 x9 x10 x11 x12 x13 x14 x15)).1 = specMoveDownG (mkGrid x0 x1 x2 x3 x4 x5 x6 x7 x8 x9 x10 x11 x12 x13 x14 x15) ∧
    (moveDown (mkGrid x0 x1 x2 x3 x4 x5 x6 x7 x8 x9 x10 x11 x12 x13 x14 x15)).2.1 = specMoveDownScore (mkGrid x0 x1 x2 x3 x4 x5 x6 x7 x8 x9 x10 x11 x12 x13 x14 x15) :=
  ⟨moveLeft_grid _, moveLeft_score _, moveRight_conj _, moveRight_conj_score _,
   moveUp_conj16 x0 x1 x2 x3 x4 x5 x6 x7 x8 x9 x10 x11 x12 x13 x14 x15, moveUp_conj16_score x0 x1 x2 x3 x4 x5 x6 x7 x8 x9 x10 x11 x12 x13 x14 x15,
   moveDown_conj16 x0 x1 x2 x3 x4 x5 x6 x7 x8 x9 x10 x11 x12 x13 x14 x15, moveDown_conj16_score x0 x1 x2 x3 x4 x5 x6 x7 x8 x9 x10 x11 x12 x13 x14 x15⟩

end Puzzle2048

namespace Puzzle2048

/-! ### Claim C3 — no-op moves -/

theorem list4_exists {α : Type} (l : List α) (h : l.length = 4) :
    ∃ a b c d : α, l = [a, b, c, d] := by
  rcases l with _ | ⟨a, _ | ⟨b, _ | ⟨c, _ | ⟨d, _ | ⟨e, t⟩⟩⟩⟩⟩
  · simp at h
  · simp at h
  · simp at h
  · simp at h
  · exact ⟨a, b, c, d, rfl⟩
  · simp at h

theorem getD_ext4 (l : List Nat) (h : l.length = 4) :
    l = [l.getD 0 0, l.getD 1 0, l.getD 2 0, l.getD 3 0] := by
  rcases list4_exists l h with ⟨a, b, c, d, hl⟩
  rw [hl]
  rfl

theorem wf_destruct (g : Grid) (h : wf g = true) :
    ∃ y0 y1 y2 y3 y4 y5 y6 y7 y8 y9 y10 y11 y12 y13 y14 y15 : Nat,
      g = mkGrid y0 y1 y2 y3 y4 y5 y6 y7 y8 y9 y10 y11 y12 y13 y14 y15 := by
  obtain ⟨hlen, hrows⟩ := wf_iff g h
  rcases list4_exists g hlen with ⟨r0, r1, r2, r3, hg⟩
  subst hg
  rcases list4_exists r0 (hrows r0 (by simp)) with ⟨a0, a1, a2, a3, h0⟩
  rcases list4_exists r1 (hrows r1 (by simp)) with ⟨b0, b1, b2, b3, h1⟩
  rcases list4_exists r2 (hrows r2 (by simp)) with ⟨c0, c1, c2, c3, h2⟩
  rcases list4_exists r3 (hrows r3 (by simp)) with ⟨d0, d1, d2, d3, h3⟩
  subst h0 h1 h2 h3
  exact ⟨a0, a1, a2, a3, b0, b1, b2, b3, c0, c1, c2, c3, d0, d1, d2, d3, rfl⟩

set_option maxHeartbeats 8000000 in
theorem moveUp_self16 (x0 x1 x2 x3 x4 x5 x6 x7 x8 x9 x10 x11 x12 x13 x14 x15 : Nat)
    (h : (moveUp (mkGrid x0 x1 x2 x3 x4 x5 x6 x7 x8 x9 x10 x11 x12 x13 x14 x15)).1 = mkGrid x0 x1 x2 x3 x4 x5 x6 x7 x8 x9 x10 x11 x12 x13 x14 x15) :
    (moveUp (mkGrid x0 x1 x2 x3 x4 x5 x6 x7 x8 x9 x10 x11 x12 x13 x14 x15)).2.1 = 0 ∧ (moveUp (mkGrid x0 x1 x2 x3 x4 x5 x6 x7 x8 x9 x10 x11 x12 x13 x14 x15)).2.2 = [] := by
  have he : (moveUp (mkGrid x0 x1 x2 x3 x4 x5 x6 x7 x8 x9 x10 x11 x12 x13 x14 x15)).1 =
      [[(collapseRowL [x0, x4, x8, x12]).merged.getD 0 0, (collapseRowL [x1, x5, x9, x13]).merged.getD 0 0, (collapseRowL [x2, x6, x10, x14]).merged.getD 0 0, (collapseRowL [x3, x7, x11, x15]).merged.getD 0 0],
         [(collapseRowL [x0, x4, x8, x12]).merged.getD 1 0, (collapseRowL [x1, x5, x9, x13]).merged.getD 1 0, (collapseRowL [x2, x6, x10, x14]).merged.getD 1 0, (collapseRowL [x3, x7, x11, x15]).merged.getD 1 0],
         [(collapseRowL [x0, x4, x8, x12]).merged.getD 2 0, (collapseRowL [x1, x5, x9, x13]).merged.getD 2 0, (collapseRowL [x2, x6, x10, x14]).merged.getD 2 0, (collapseRowL [x3, x7, x11, x15]).merged.getD 2 0],
         [(collapseRowL [x0, x4, x8, x12]).merged.getD 3 0, (collapseRowL [x1, x5, x9, x13]).merged.getD 3 0, (collapseRowL [x2, x6, x10, x14]).merged.getD 3 0, (collapseRowL [x3, x7, x11, x15]).merged.getD 3 0]] := rfl
  rw [he] at h
  simp only [mkGrid, List.cons.injEq, and_true] at h
  obtain ⟨h0, h1, h2, h3⟩ := h
  have hm0 : (collapseRowL [x0, x4, x8, x12]).merged = [x0, x4, x8, x12] :=
    (getD_ext4 _ (collapseRowL_len [x0, x4, x8, x12] (by simp [gridSize]))).trans
      (by rw [h0.1, h1.1, h2.1, h3.1])
  have hm1 : (collapseRowL [x1, x5, x9, x13]).merged = [x1, x5, x9, x13] :=
    (getD_ext4 _ (collapseRowL_len [x1, x5, x9, x13] (by simp [gridSize]))).trans
      (by rw [h0.2.1, h1.2.1, h2.2.1, h3.2.1])
  have hm2 : (collapseRowL [x2, x6, x10, x14]).merged = [x2, x6, x10, x14] :=
    (getD_ext4 _ (collapseRowL_len [x2, x6, x10, x14] (by simp [gridSize]))).trans
      (by rw [h0.2.2.1, h1.2.2.1, h2.2.2.1, h3.2.2.1])
  have hm3 : (collapseRowL [x3, x7, x11, x15]).merged = [x3, x7, x11, x15] :=
    (getD_ext4 _ (collapseRowL_len [x3, x7, x11, x15] (by simp [gridSize]))).trans
      (by rw [h0.2.2.2, h1.2.2.2, h2.2.2.2, h3.2.2.2])
  have hs0 := collapseRowL_self _ hm0
  have hs1 := collapseRowL_self _ hm1
  have hs2 := collapseRowL_self _ hm2
  have hs3 := collapseRowL_self _ hm3
  constructor
  · have hsc : (moveUp (mkGrid x0 x1 x2 x3 x4 x5 x6 x7 x8 x9 x10 x11 x12 x13 x14 x15)).2.1 = 0 + (collapseRowL [x0, x4, x8, x12]).gained + (collapseRowL [x1, x5, x9, x13]).gained + (collapseRowL [x2, x6, x10, x14]).gained + (collapseRowL [x3, x7, x11, x15]).gained := rfl
    rw [hsc, hs0.1, hs1.1, hs2.1, hs3.1]
  · have hev : (moveUp (mkGrid x0 x1 x2 x3 x4 x5 x6 x7 x8 x9 x10 x11 x12 x13 x14 x15)).2.2 = [] ++ ((collapseRowL [x0, x4, x8, x12]).evs.map fun q => Ev.merge (q.1, 0) q.2) ++ ((collapseRowL [x1, x5, x9, x13]).evs.map fun q => Ev.merge (q.1, 1) q.2) ++ ((collapseRowL [x2, x6, x10, x14]).evs.map fun q => Ev.merge (q.1, 2) q.2) ++ ((collapseRowL [x3, x7, x11, x15]).evs.map fun q => Ev.merge (q.1, 3) q.2) := rfl
    rw [hev, hs0.2, hs1.2, hs2.2, hs3.2]
    simp

set_option maxHeartbeats 8000000 in
theorem moveDown_self16 (x0 x1 x2 x3 x4 x5 x6 x7 x8 x9 x10 x11 x12 x13 x14 x15 : Nat)
    (h : (moveDown (mkGrid x0 x1 x2 x3 x4 x5 x6 x7 x8 x9 x10 x11 x12 x13 x14 x15)).1 = mkGrid x0 x1 x2 x3 x4 x5 x6 x7 x8 x9 x10 x11 x12 x13 x14 x15) :
    (moveDown (mkGrid x0 x1 x2 x3 x4 x5 x6 x7 x8 x9 x10 x11 x12 x13 x14 x15)).2.1 = 0 ∧ (moveDown (mkGrid x0 x1 x2 x3 x4 x5 x6 x7 x8 x9 x10 x11 x12 x13 x14 x15)).2.2 = [] := by
  have he : (moveDown (mkGrid x0 x1 x2 x3 x4 x5 x6 x7 x8 x9 x10 x11 x12 x13 x14 x15)).1 =
      [[(collapseRowR [x0, x4, x8, x12]).merged.getD 0 0, (collapseRowR [x1, x5, x9, x13]).merged.getD 0 0, (collapseRowR [x2, x6, x10, x14]).merged.getD 0 0, (collapseRowR [x3, x7, x11, x15]).merged.getD 0 0],
         [(collapseRowR [x0, x4, x8, x12]).merged.getD 1 0, (collapseRowR [x1, x5, x9, x13]).merged.getD 1 0, (collapseRowR [x2, x6, x10, x14]).merged.getD 1 0, (collapseRowR [x3, x7, x11, x15]).merged.getD 1 0],
         [(collapseRowR [x0, x4, x8, x12]).merged.getD 2 0, (collapseRowR [x1, x5, x9, x13]).merged.getD 2 0, (collapseRowR [x2, x6, x10, x14]).merged.getD 2 0, (collapseRowR [x3, x7, x11, x15]).merged.getD 2 0],
         [(collapseRowR [x0, x4, x8, x12]).merged.getD 3 0, (collapseRowR [x1, x5, x9, x13]).merged.getD 3 0, (collapseRowR [x2, x6, x10, x14]).merged.getD 3 0, (collapseRowR [x3, x7, x11, x15]).merged.getD 3 0]] := rfl
  rw [he] at h
  simp only [mkGrid, List.cons.injEq, and_true] at h
  obtain ⟨h0, h1, h2, h3⟩ := h
  have hm0 : (collapseRowR [x0, x4, x8, x12]).merged = [x0, x4, x8, x12] :=
    (getD_ext4 _ (collapseRowR_len [x0, x4, x8, x12] (by simp [gridSize]))).trans
      (by rw [h0.1, h1.1, h2.1, h3.1])
  have hm1 : (collapseRowR [x1, x5, x9, x13]).merged = [x1, x5, x9, x13] :=
    (getD_ext4 _ (collapseRowR_len [x1, x5, x9, x13] (by simp [gridSize]))).trans
      (by rw [h0.2.1, h1.2.1, h2.2.1, h3.2.1])
  have hm2 : (collapseRowR [x2, x6, x10, x14]).merged = [x2, x6, x10, x14] :=
    (getD_ext4 _ (collapseRowR_len [x2, x6, x10, x14] (by simp [gridSize]))).trans
      (by rw [h0.2.2.1, h1.2.2.1, h2.2.2.1, h3.2.2.1])
  have hm3 : (collapseRowR [x3, x7, x11, x15]).merged = [x3, x7, x11, x15] :=
    (getD_ext4 _ (collapseRowR_len [x3, x7, x11, x15] (by simp [gridSize]))).trans
      (by rw [h0.2.2.2, h1.2.2.2, h2.2.2.2, h3.2.2.2])
  have hs0 := collapseRowR_self _ hm0
  have hs1 := collapseRowR_self _ hm1
  have hs2 := collapseRowR_self _ hm2
  have hs3 := collapseRowR_self _ hm3
  constructor
  · have hsc : (moveDown (mkGrid x0 x1 x2 x3 x4 x5 x6 x7 x8 x9 x10 x11 x12 x13 x14 x15)).2.1 = 0 + (collapseRowR [x0, x4, x8, x12]).gained + (collapseRowR [x1, x5, x9, x13]).gained + (collapseRowR [x2, x6, x10, x14]).gained + (collapseRowR [x3, x7, x11, x15]).gained := rfl
    rw [hsc, hs0.1, hs1.1, hs2.1, hs3.1]
  · have hev : (moveDown (mkGrid x0 x1 x2 x3 x4 x5 x6 x7 x8 x9 x10 x11 x12 x13 x14 x15)).2.2 = [] ++ ((collapseRowR [x0, x4, x8, x12]).evs.map fun q => Ev.merge (q.1, 0) q.2) ++ ((collapseRowR [x1, x5, x9, x13]).evs.map fun q => Ev.merge (q.1, 1) q.2) ++ ((collapseRowR [x2, x6, x10, x14]).evs.map fun q => Ev.merge (q.1, 2) q.2) ++ ((collapseRowR [x3, x7, x11, x15]).evs.map fun q => Ev.merge (q.1, 3) q.2) := rfl
    rw [hev, hs0.2, hs1.2, hs2.2, hs3.2]
    simp

theorem dirMove_self (d : Direction) (g : Grid) (hwf : wf g = true)
    (h : (dirMove d g).1 = g) : (dirMove d g).2.1 = 0 ∧ (dirMove d g).2.2 = [] := by
  cases d with
  | left => exact moveLeft_self g h
  | right => exact moveRight_self g h
  | up =>
    rcases wf_destruct g hwf with ⟨y0, y1, y2, y3, y4, y5, y6, y7, y8, y9, y10, y11, y12, y13, y14, y15, hg⟩
    subst hg
    exact moveUp_self16 y0 y1 y2 y3 y4 y5 y6 y7 y8 y9 y10 y11 y12 y13 y14 y15 h
  | down =>
    rcases wf_destruct g hwf with ⟨y0, y1, y2, y3, y4, y5, y6, y7, y8, y9, y10, y11, y12, y13, y14, y15, hg⟩
    subst hg
    exact moveDown_self16 y0 y1 y2 y3 y4 y5 y6 y7 y8 y9 y10 y11 y12 y13 y14 y15 h

end Puzzle2048

namespace Puzzle2048

/-- C3 counterexample: a state whose win flag is set (2048 present) but
which is not game-over still accepts moves — `handle_event` gates the four
movement keys only on `game_over`, so applying Left changes the board (and
is not a no-op). -/
theorem c3_won_not_noop_cex :
    (⟨[[2048, 2, 2, 0], [0, 0, 0, 0], [0, 0, 0, 0], [0, 0, 0, 0]],
        0, false, true, false, []⟩ : GState).won = true ∧
    (handleMove
      ⟨[[2048, 2, 2, 0], [0, 0, 0, 0], [0, 0, 0, 0], [0, 0, 0, 0]],
        0, false, true, false, []⟩ Direction.left 0 false).grid
      ≠ [[2048, 2, 2, 0], [0, 0, 0, 0], [0, 0, 0, 0], [0, 0, 0, 0]] ∧
    (handleMove
      ⟨[[2048, 2, 2, 0], [0, 0, 0, 0], [0, 0, 0, 0], [0, 0, 0, 0]],
        0, false, true, false, []⟩ Direction.left 0 false).score ≠ 0 := by
  refine ⟨rfl, ?_, ?_⟩
  · decide
  · decide

/-- C3 amended: a move is a no-op exactly in the Lost state or on an
unchanged board — if the game is already Lost (`game_over`), an arrow key
does nothing at all; if the game is live and the requested direction leaves
the 4×4 board unchanged, the move only clears the `moved` flag and changes
nothing else (no events, no spawn, no terminal re-check, same board, score
and flags).  The Won state alone does not block moves. -/
theorem c3_noop_conditions (s : GState) (d : Direction) (p : Nat) (f : Bool) :
    (s.gameOver = true → handleMove s d p f = s) ∧
    (wf s.grid = true → s.gameOver = false → (dirMove d s.grid).1 = s.grid →
      handleMove s d p f = { s with moved := false }) := by
  constructor
  · intro h
    simp [handleMove, h]
  · intro hwf hg hun
    obtain ⟨hz, he⟩ := dirMove_self d s.grid hwf hun
    simp only [handleMove, hg, Bool.false_eq_true, if_false, moveTiles, hun, if_true]
    rw [hz, he]
    obtain ⟨g, sc, go, w, m, an⟩ := s
    simp

/-- Witness for the amended C3: a Lost state ignores the key entirely, and
a live board with no legal Left shift keeps board, score, flags and events,
only clearing `moved`. -/
theorem c3_noop_conditions_witness :
    handleMove
        ⟨[[2, 4, 8, 16], [0, 0, 0, 0], [0, 0, 0, 0], [0, 0, 0, 0]],
          9, true, false, true, []⟩ Direction.left 0 false
      = ⟨[[2, 4, 8, 16], [0, 0, 0, 0], [0, 0, 0, 0], [0, 0, 0, 0]],
          9, true, false, true, []⟩ ∧
    handleMove
        ⟨[[2, 4, 8, 16], [0, 0, 0, 0], [0, 0, 0, 0], [0, 0, 0, 0]],
          5, false, false, true, []⟩ Direction.left 0 false
      = ⟨[[2, 4, 8, 16], [0, 0, 0, 0], [0, 0, 0, 0], [0, 0, 0, 0]],
          5, false, false, false, []⟩ :=
  ⟨(c3_noop_conditions _ Direction.left 0 false).1 rfl,
   (c3_noop_conditions _ Direction.left 0 false).2 (by decide) rfl (by decide)⟩

end Puzzle2048
